import Mathlib

/-!
Shallow embedding of the QuatGolf physics/terrain core
(`src/games/QuatGolf/src`): `Vec3`, `Surface`, `Terrain`, `BallPhysics`
and the `CourseBuilder` stamping geometry, with theorems checking the
specification's claims about them.

C++ `float` arithmetic is modelled over `ℝ`; float literals are read as
the exact decimals written in the source.  `Vec3::normalized()` throws
when the length is below `1e-8`, so it is modelled as an `Option`, and
the physics step functions that call it return `Option BallState`.
-/

namespace QuatGolf

noncomputable section

/-- A 3D vector, from `shared/cpp/math/Vec3.h` (float components as `ℝ`). -/
structure Vec3 where
  x : ℝ
  y : ℝ
  z : ℝ

namespace Vec3

/-- Models `operator+`. -/
def add (a b : Vec3) : Vec3 := ⟨a.x + b.x, a.y + b.y, a.z + b.z⟩

/-- Models `operator-`. -/
def sub (a b : Vec3) : Vec3 := ⟨a.x - b.x, a.y - b.y, a.z - b.z⟩

/-- Models `operator*(float)`. -/
def smul (a : Vec3) (s : ℝ) : Vec3 := ⟨a.x * s, a.y * s, a.z * s⟩

/-- Models `dot`. -/
def dot (a b : Vec3) : ℝ := a.x * b.x + a.y * b.y + a.z * b.z

/-- Models `cross`. -/
def cross (a b : Vec3) : Vec3 :=
  ⟨a.y * b.z - a.z * b.y, a.z * b.x - a.x * b.z, a.x * b.y - a.y * b.x⟩

/-- Models `length_squared`. -/
def length_squared (v : Vec3) : ℝ := v.x * v.x + v.y * v.y + v.z * v.z

/-- Models `length`. -/
def length (v : Vec3) : ℝ := Real.sqrt v.length_squared

/-- Models `Vec3::zero()`. -/
def zero : Vec3 := ⟨0, 0, 0⟩

/-- Models `normalized()`: throws (`none`) when the length is below `1e-8`,
otherwise divides each component by the length. -/
def normalized (v : Vec3) : Option Vec3 :=
  let len := v.length
  if len < 1 / 100000000 then none
  else some ⟨v.x / len, v.y / len, v.z / len⟩

end Vec3

/-- Surface categories, from `terrain/Surface.h` (`Count` is the C++
end-of-enum sentinel enumerator, also a value of the type). -/
inductive SurfaceType where
  | Tee
  | Fairway
  | Rough
  | DeepRough
  | Sand
  | Green
  | Water
  | OutOfBounds
  | Count
deriving DecidableEq, Repr

/-- Models `SurfaceProps` from `terrain/Surface.h`. -/
structure SurfaceProps where
  type : SurfaceType
  friction : ℝ
  bounce : ℝ
  speed_mult : ℝ
  r : ℝ
  g : ℝ
  b : ℝ

/-- The `get_surface` lookup table from `terrain/Surface.h` (the
`OutOfBounds` and `default` cases share one entry, as in the source). -/
def get_surface (type : SurfaceType) : SurfaceProps :=
  match type with
  | SurfaceType.Tee       => ⟨type, 8/100, 5/10, 1, 35/100, 75/100, 30/100⟩
  | SurfaceType.Fairway   => ⟨type, 10/100, 45/100, 1, 28/100, 65/100, 22/100⟩
  | SurfaceType.Rough     => ⟨type, 30/100, 35/100, 7/10, 22/100, 48/100, 16/100⟩
  | SurfaceType.DeepRough => ⟨type, 50/100, 25/100, 4/10, 16/100, 36/100, 12/100⟩
  | SurfaceType.Sand      => ⟨type, 60/100, 15/100, 5/10, 90/100, 82/100, 60/100⟩
  | SurfaceType.Green     => ⟨type, 4/100, 40/100, 1, 22/100, 78/100, 30/100⟩
  | SurfaceType.Water     => ⟨type, 1, 0, 0, 15/100, 35/100, 70/100⟩
  | SurfaceType.OutOfBounds => ⟨type, 50/100, 30/100, 5/10, 40/100, 35/100, 30/100⟩
  | SurfaceType.Count     => ⟨type, 50/100, 30/100, 5/10, 40/100, 35/100, 30/100⟩

/-- Models `std::clamp(v, lo, hi)`. -/
def cppClamp (v lo hi : ℤ) : ℤ := max lo (min v hi)

/-- Models `static_cast<int>` on a float: truncation toward zero. -/
def cppTrunc (g : ℝ) : ℤ := if 0 ≤ g then ⌊g⌋ else ⌈g⌉

/-- Models `std::round` then `static_cast<int>`: rounds half away from zero. -/
def cppRound (g : ℝ) : ℤ := if 0 ≤ g then ⌊g + 1/2⌋ else ⌈g - 1/2⌉

/-- The terrain grid, from `terrain/Terrain.h` (the renderable mesh is
presentation-only and is omitted). -/
structure Terrain where
  width : ℤ
  depth : ℤ
  cell_size : ℝ
  heights : List ℝ
  surfaces : List SurfaceType

namespace Terrain

/-- Models `Terrain::height_at` — clamped grid lookup. -/
def height_at (t : Terrain) (x z : ℤ) : ℝ :=
  let x := cppClamp x 0 (t.width - 1)
  let z := cppClamp z 0 (t.depth - 1)
  t.heights.getD (z * t.width + x).toNat 0

/-- Models `Terrain::surface_at` — clamped grid lookup. -/
def surface_at (t : Terrain) (x z : ℤ) : SurfaceType :=
  let x := cppClamp x 0 (t.width - 1)
  let z := cppClamp z 0 (t.depth - 1)
  t.surfaces.getD (z * t.width + x).toNat SurfaceType.Tee

/-- Models `Terrain::height_at_world` — bilinear interpolation. -/
def height_at_world (t : Terrain) (wx wz : ℝ) : ℝ :=
  let gx := wx / t.cell_size + (t.width : ℝ) / 2
  let gz := wz / t.cell_size + (t.depth : ℝ) / 2
  let x0 : ℤ := ⌊gx⌋
  let z0 : ℤ := ⌊gz⌋
  let fx := gx - (x0 : ℝ)
  let fz := gz - (z0 : ℝ)
  let h00 := t.height_at x0 z0
  let h10 := t.height_at (x0 + 1) z0
  let h01 := t.height_at x0 (z0 + 1)
  let h11 := t.height_at (x0 + 1) (z0 + 1)
  let h0 := h00 + (h10 - h00) * fx
  let h1 := h01 + (h11 - h01) * fx
  h0 + (h1 - h0) * fz

/-- Models `Terrain::surface_at_world` — round to nearest cell, clamped. -/
def surface_at_world (t : Terrain) (wx wz : ℝ) : SurfaceType :=
  let gx := wx / t.cell_size + (t.width : ℝ) / 2
  let gz := wz / t.cell_size + (t.depth : ℝ) / 2
  t.surface_at (cppRound gx) (cppRound gz)

/-- Models `Terrain::normal_at` — central finite differences, normalized. -/
def normal_at (t : Terrain) (x z : ℤ) : Option Vec3 :=
  let hL := t.height_at (x - 1) z
  let hR := t.height_at (x + 1) z
  let hD := t.height_at x (z - 1)
  let hU := t.height_at x (z + 1)
  (Vec3.mk (hL - hR) (2 * t.cell_size) (hD - hU)).normalized

/-- Models `Terrain::normal_at_world` — round to nearest cell, delegate. -/
def normal_at_world (t : Terrain) (wx wz : ℝ) : Option Vec3 :=
  let gx := wx / t.cell_size + (t.width : ℝ) / 2
  let gz := wz / t.cell_size + (t.depth : ℝ) / 2
  t.normal_at (cppRound gx) (cppRound gz)

/-- Models `Terrain::set_data`. -/
def set_data (t : Terrain) (w d : ℤ) (cs : ℝ)
    (heights : List ℝ) (surfaces : List SurfaceType) : Terrain :=
  { t with width := w, depth := d, cell_size := cs,
           heights := heights, surfaces := surfaces }

end Terrain

/-- Models `BallState` from `physics/BallPhysics.h`. -/
structure BallState where
  position : Vec3
  velocity : Vec3
  spin : Vec3
  in_flight : Bool := false
  rolling : Bool := false
  stopped : Bool := false
  in_water : Bool := false

/-- Models `BallState::speed()`. -/
def BallState.speed (b : BallState) : ℝ := b.velocity.length

/-- Models `BallConstants` from `physics/BallPhysics.h`. -/
structure BallConstants where
  mass : ℝ
  radius : ℝ
  area : ℝ
  drag_coeff : ℝ
  lift_coeff : ℝ
  air_density : ℝ
  gravity : ℝ
  min_speed : ℝ
  bounce_loss : ℝ
  wind : Vec3

/-- The default member values of `BallConstants`. -/
def defaultConstants : BallConstants :=
  { mass := 4593/100000, radius := 2135/100000, area := 1432/1000000,
    drag_coeff := 25/100, lift_coeff := 18/100, air_density := 1225/1000,
    gravity := 981/100, min_speed := 2/100, bounce_loss := 15/100,
    wind := Vec3.zero }

/-- Models `BallPhysics::launch`. -/
def launch (b : BallState) (velocity spin : Vec3) : BallState :=
  { b with velocity := velocity, spin := spin,
           in_flight := true, rolling := false,
           stopped := false, in_water := false }

/-- Models `BallPhysics::update_flight`: gravity + drag + Magnus lift,
semi-implicit Euler.  `none` models the `normalized()` throw. -/
def update_flight (c : BallConstants) (b : BallState) (dt : ℝ) :
    Option BallState :=
  let rel_vel := b.velocity.sub c.wind
  let speed := rel_vel.length
  if speed < 1/1000 then some b
  else
    rel_vel.normalized.bind fun rel_dir =>
    let drag_dir := rel_dir.smul (-1)
    let drag_force := 1/2 * c.air_density * c.drag_coeff * c.area *
                      speed * speed
    let drag_accel := drag_dir.smul (drag_force / c.mass)
    let liftO : Option Vec3 :=
      if b.spin.length > 1/100 then
        (b.spin.cross rel_vel).normalized.map fun lift_dir =>
          lift_dir.smul (1/2 * c.air_density * c.lift_coeff * c.area *
                         speed * speed / c.mass)
      else some Vec3.zero
    liftO.bind fun lift_accel =>
    let gravity_accel : Vec3 := ⟨0, -c.gravity, 0⟩
    let total_accel := (gravity_accel.add drag_accel).add lift_accel
    let velocity := b.velocity.add (total_accel.smul dt)
    let position := b.position.add (velocity.smul dt)
    some { b with velocity := velocity, position := position,
                  spin := b.spin.smul (999/1000) }

/-- The reflect-and-scale bounce of `check_terrain_contact`: reflect `v`
about `n`, then scale by `surface.bounce * (1 - bounce_loss)`. -/
def bounce_velocity (c : BallConstants) (surface : SurfaceProps)
    (v n : Vec3) : Vec3 :=
  (v.sub (n.smul (2 * v.dot n))).smul (surface.bounce * (1 - c.bounce_loss))

/-- Models `BallPhysics::check_terrain_contact`. -/
def check_terrain_contact (c : BallConstants) (t : Terrain)
    (b : BallState) : Option BallState :=
  let ground_y := t.height_at_world b.position.x b.position.z
  if b.position.y ≤ ground_y + c.radius then
    let b1 := { b with position := ⟨b.position.x, ground_y + c.radius,
                                    b.position.z⟩ }
    let surface_type := t.surface_at_world b1.position.x b1.position.z
    if surface_type = SurfaceType.Water then
      some { b1 with in_water := true, in_flight := false,
                     velocity := Vec3.zero }
    else
      let surface := get_surface surface_type
      (t.normal_at_world b1.position.x b1.position.z).bind fun normal =>
      let v_dot_n := b1.velocity.dot normal
      if v_dot_n < 0 then
        let v2 := bounce_velocity c surface b1.velocity normal
        if v2.y < 1/2 then
          some { b1 with in_flight := false, rolling := true,
                         velocity := ⟨v2.x, 0, v2.z⟩ }
        else some { b1 with velocity := v2 }
      else some b1
  else some b

/-- Models `BallPhysics::update_rolling`. -/
def update_rolling (c : BallConstants) (t : Terrain) (b : BallState)
    (dt : ℝ) : Option BallState :=
  let ground_y := t.height_at_world b.position.x b.position.z
  let b1 := { b with position := ⟨b.position.x, ground_y + c.radius,
                                  b.position.z⟩ }
  let surface_type := t.surface_at_world b1.position.x b1.position.z
  if surface_type = SurfaceType.Water then
    some { b1 with in_water := true, rolling := false,
                   velocity := Vec3.zero }
  else
    let surface := get_surface surface_type
    (t.normal_at_world b1.position.x b1.position.z).bind fun normal =>
    let gravity_vec : Vec3 := ⟨0, -c.gravity, 0⟩
    let g_dot_n := gravity_vec.dot normal
    let slope_accel := gravity_vec.sub (normal.smul g_dot_n)
    let speed := b1.velocity.length
    let frictionO : Option Vec3 :=
      if speed > 1/1000 then
        b1.velocity.normalized.map fun v_dir =>
          (v_dir.smul (-1)).smul (surface.friction * c.gravity)
      else some Vec3.zero
    frictionO.bind fun friction_accel =>
    let v1 := b1.velocity.add ((slope_accel.add friction_accel).smul dt)
    let v2 := v1.smul surface.speed_mult
    let pos1 := b1.position.add (v2.smul dt)
    let pos2 : Vec3 := ⟨pos1.x,
                        t.height_at_world pos1.x pos1.z + c.radius,
                        pos1.z⟩
    if v2.length < c.min_speed then
      some { b1 with position := pos2, velocity := Vec3.zero,
                     rolling := false, stopped := true }
    else
      some { b1 with position := pos2, velocity := v2 }

/-- Models `BallPhysics::update`: dispatch on the state flags. -/
def update (c : BallConstants) (t : Terrain) (b : BallState) (dt : ℝ) :
    Option BallState :=
  if b.stopped || b.in_water then some b
  else if b.in_flight then
    (update_flight c b dt).bind (check_terrain_contact c t)
  else if b.rolling then update_rolling c t b dt
  else some b

/-- Models `Bunker` from `course/Hole.h`. -/
structure Bunker where
  center : Vec3
  radius : ℝ
  depth : ℝ

/-- Models `GreenDef` from `course/Hole.h`. -/
structure GreenDef where
  center : Vec3
  radius : ℝ
  pin : Vec3
  slope_angle : ℝ
  slope_dir : ℝ

/-- Models `TeeDef` from `course/Hole.h`. -/
structure TeeDef where
  position : Vec3
  width : ℝ
  depth : ℝ

/-- Models `CourseBuilder::world_to_grid` (cast to `int` truncates). -/
def world_to_grid (t : Terrain) (wx wz : ℝ) : ℤ × ℤ :=
  (cppTrunc (wx / t.cell_size + (t.width : ℝ) / 2),
   cppTrunc (wz / t.cell_size + (t.depth : ℝ) / 2))

/-- The cells `(gx0+i, gz0+j)` visited by the nested `for` loops of
`paint_circle`, in loop order (`z` outer, `x` inner): element `i` of
the list is `(gx0 + i % W, gz0 + i / W)` for row width `W`. -/
def bboxCells (gx0 gz0 gx1 gz1 : ℤ) : List (ℤ × ℤ) :=
  let W := (gx1 - gx0 + 1).toNat
  let D := (gz1 - gz0 + 1).toNat
  (List.range (D * W)).map fun i =>
    (gx0 + ((i % W : ℕ) : ℤ), gz0 + ((i / W : ℕ) : ℤ))

/-- Body of the inner loop of `CourseBuilder::paint_circle` for one grid
cell: write the surface, and the flatten / linear-falloff height. -/
def paint_cell (t : Terrain) (cx cz radius : ℝ) (surface : SurfaceType)
    (height_offset : ℝ) (flatten : Bool)
    (acc : List SurfaceType × List ℝ) (cell : ℤ × ℤ) :
    List SurfaceType × List ℝ :=
  let x := cell.1
  let z := cell.2
  let wx := ((x : ℝ) - (t.width : ℝ) / 2) * t.cell_size
  let wz := ((z : ℝ) - (t.depth : ℝ) / 2) * t.cell_size
  let dx := wx - cx
  let dz := wz - cz
  let dist := Real.sqrt (dx * dx + dz * dz)
  if dist ≤ radius then
    let idx := (z * t.width + x).toNat
    let surfaces := acc.1.set idx surface
    let heights :=
      if flatten then
        let blend := dist / radius
        let target := t.height_at x z + height_offset
        acc.2.set idx (acc.2.getD idx 0 * blend + target * (1 - blend) +
                       height_offset)
      else if height_offset ≠ 0 then
        let blend := 1 - dist / radius
        acc.2.set idx (acc.2.getD idx 0 + height_offset * blend)
      else acc.2
    (surfaces, heights)
  else acc

/-- Models `CourseBuilder::paint_circle`: clamped bounding box around the
circle, then the per-cell paint over every cell in the box. -/
def paint_circle (t : Terrain) (surfaces : List SurfaceType)
    (heights : List ℝ) (cx cz radius : ℝ) (surface : SurfaceType)
    (height_offset : ℝ) (flatten : Bool) :
    List SurfaceType × List ℝ :=
  let g0 := world_to_grid t (cx - radius) (cz - radius)
  let g1 := world_to_grid t (cx + radius) (cz + radius)
  let gx0 := max 0 g0.1
  let gz0 := max 0 g0.2
  let gx1 := min (t.width - 1) g1.1
  let gz1 := min (t.depth - 1) g1.2
  (bboxCells gx0 gz0 gx1 gz1).foldl
    (paint_cell t cx cz radius surface height_offset flatten)
    (surfaces, heights)

/-- The read-all copy loop shared by the stamp operations:
`h[z*w+x] = height_at(x,z)` in row-major order. -/
def copy_heights (t : Terrain) : List ℝ :=
  (List.range (t.depth.toNat * t.width.toNat)).map fun i =>
    t.height_at ((i % t.width.toNat : ℕ) : ℤ) ((i / t.width.toNat : ℕ) : ℤ)

/-- The read-all copy loop for surfaces. -/
def copy_surfaces (t : Terrain) : List SurfaceType :=
  (List.range (t.depth.toNat * t.width.toNat)).map fun i =>
    t.surface_at ((i % t.width.toNat : ℕ) : ℤ) ((i / t.width.toNat : ℕ) : ℤ)

/-- Models `CourseBuilder::stamp_bunker`. -/
def stamp_bunker (t : Terrain) (bunker : Bunker) : Terrain :=
  let h := copy_heights t
  let s := copy_surfaces t
  let painted := paint_circle t s h bunker.center.x bunker.center.z
    bunker.radius SurfaceType.Sand (-bunker.depth) true
  t.set_data t.width t.depth t.cell_size painted.2 painted.1

/-- Models `CourseBuilder::stamp_tee`. -/
def stamp_tee (t : Terrain) (tee : TeeDef) : Terrain :=
  let h := copy_heights t
  let s := copy_surfaces t
  let painted := paint_circle t s h tee.position.x tee.position.z
    (max tee.width tee.depth) SurfaceType.Tee (1/10) true
  t.set_data t.width t.depth t.cell_size painted.2 painted.1

/-- Models `CourseBuilder::stamp_water`. -/
def stamp_water (t : Terrain) (center : Vec3) (radius : ℝ) : Terrain :=
  let h := copy_heights t
  let s := copy_surfaces t
  let painted := paint_circle t s h center.x center.z radius
    SurfaceType.Water (-(1/2)) true
  t.set_data t.width t.depth t.cell_size painted.2 painted.1

/-- Body of the green slope loop for one cell: add the planar tilt
inside the green radius. -/
def slope_cell (t : Terrain) (green : GreenDef) (slope_dx slope_dz : ℝ)
    (h : List ℝ) (cell : ℤ × ℤ) : List ℝ :=
  let x := cell.1
  let z := cell.2
  let wx := ((x : ℝ) - (t.width : ℝ) / 2) * t.cell_size - green.center.x
  let wz := ((z : ℝ) - (t.depth : ℝ) / 2) * t.cell_size - green.center.z
  let dist := Real.sqrt (wx * wx + wz * wz)
  if dist ≤ green.radius then
    let idx := (z * t.width + x).toNat
    h.set idx (h.getD idx 0 + wx * slope_dx + wz * slope_dz)
  else h

/-- Models `CourseBuilder::stamp_green`: flatten paint, then the optional
planar slope pass inside the same radius. -/
def stamp_green (t : Terrain) (green : GreenDef) : Terrain :=
  let h := copy_heights t
  let s := copy_surfaces t
  let painted := paint_circle t s h green.center.x green.center.z
    green.radius SurfaceType.Green 0 true
  let h1 := painted.2
  let h2 :=
    if green.slope_angle > 1/100 then
      let g0 := world_to_grid t (green.center.x - green.radius)
        (green.center.z - green.radius)
      let g1 := world_to_grid t (green.center.x + green.radius)
        (green.center.z + green.radius)
      let gx0 := max 0 g0.1
      let gz0 := max 0 g0.2
      let gx1 := min (t.width - 1) g1.1
      let gz1 := min (t.depth - 1) g1.2
      let slope_rad := green.slope_angle * (314159/100000) / 180
      let slope_dx := Real.cos green.slope_dir * Real.tan slope_rad
      let slope_dz := Real.sin green.slope_dir * Real.tan slope_rad
      (bboxCells gx0 gz0 gx1 gz1).foldl
        (slope_cell t green slope_dx slope_dz) h1
    else h1
  t.set_data t.width t.depth t.cell_size h2 painted.1

/-! ### Uniform (flat) terrain helpers -/

/-- A terrain of globally constant height `h0` and uniform surface `s`. -/
def flatTerrain (w d : ℤ) (cs h0 : ℝ) (s : SurfaceType) : Terrain :=
  { width := w, depth := d, cell_size := cs,
    heights := List.replicate (w * d).toNat h0,
    surfaces := List.replicate (w * d).toNat s }

theorem flatTerrain_height_at (w d : ℤ) (cs h0 : ℝ) (s : SurfaceType)
    (hw : 0 < w) (hd : 0 < d) (x z : ℤ) :
    (flatTerrain w d cs h0 s).height_at x z = h0 := by
  have hx : cppClamp x 0 (w - 1) ≤ w - 1 := by
    simp only [cppClamp]; omega
  have hx0 : 0 ≤ cppClamp x 0 (w - 1) := le_max_left _ _
  have hz : cppClamp z 0 (d - 1) ≤ d - 1 := by
    simp only [cppClamp]; omega
  have hz0 : 0 ≤ cppClamp z 0 (d - 1) := le_max_left _ _
  have hidx : (cppClamp z 0 (d - 1) * w + cppClamp x 0 (w - 1)).toNat <
      (w * d).toNat := by
    have h1 : cppClamp z 0 (d - 1) * w + cppClamp x 0 (w - 1) ≤
        (d - 1) * w + (w - 1) := by
      have := mul_le_mul_of_nonneg_right hz (le_of_lt hw)
      omega
    have h2 : (d - 1) * w + (w - 1) < w * d := by ring_nf; omega
    have h3 : 0 < w * d := mul_pos hw hd
    have h4 : 0 ≤ cppClamp z 0 (d - 1) * w :=
      mul_nonneg hz0 (le_of_lt hw)
    omega
  simp only [flatTerrain, Terrain.height_at]
  rw [List.getD_eq_getElem?_getD, List.getElem?_replicate]
  simp [hidx, List.length_replicate]

theorem flatTerrain_surface_at (w d : ℤ) (cs h0 : ℝ) (s : SurfaceType)
    (hw : 0 < w) (hd : 0 < d) (x z : ℤ) :
    (flatTerrain w d cs h0 s).surface_at x z = s := by
  have hx : cppClamp x 0 (w - 1) ≤ w - 1 := by
    simp only [cppClamp]; omega
  have hx0 : 0 ≤ cppClamp x 0 (w - 1) := le_max_left _ _
  have hz : cppClamp z 0 (d - 1) ≤ d - 1 := by
    simp only [cppClamp]; omega
  have hz0 : 0 ≤ cppClamp z 0 (d - 1) := le_max_left _ _
  have hidx : (cppClamp z 0 (d - 1) * w + cppClamp x 0 (w - 1)).toNat <
      (w * d).toNat := by
    have h1 : cppClamp z 0 (d - 1) * w + cppClamp x 0 (w - 1) ≤
        (d - 1) * w + (w - 1) := by
      have := mul_le_mul_of_nonneg_right hz (le_of_lt hw)
      omega
    have h2 : (d - 1) * w + (w - 1) < w * d := by ring_nf; omega
    have h3 : 0 < w * d := mul_pos hw hd
    have h4 : 0 ≤ cppClamp z 0 (d - 1) * w :=
      mul_nonneg hz0 (le_of_lt hw)
    omega
  simp only [flatTerrain, Terrain.surface_at]
  rw [List.getD_eq_getElem?_getD, List.getElem?_replicate]
  simp [hidx, List.length_replicate]

theorem flatTerrain_height_at_world (w d : ℤ) (cs h0 : ℝ) (s : SurfaceType)
    (hw : 0 < w) (hd : 0 < d) (wx wz : ℝ) :
    (flatTerrain w d cs h0 s).height_at_world wx wz = h0 := by
  simp only [Terrain.height_at_world,
    flatTerrain_height_at w d cs h0 s hw hd]
  ring

theorem flatTerrain_surface_at_world (w d : ℤ) (cs h0 : ℝ) (s : SurfaceType)
    (hw : 0 < w) (hd : 0 < d) (wx wz : ℝ) :
    (flatTerrain w d cs h0 s).surface_at_world wx wz = s := by
  simp only [Terrain.surface_at_world,
    flatTerrain_surface_at w d cs h0 s hw hd]

theorem flatTerrain_normal_at (w d : ℤ) (cs h0 : ℝ) (s : SurfaceType)
    (hw : 0 < w) (hd : 0 < d) (hcs : 1 / 100000000 ≤ 2 * cs)
    (x z : ℤ) :
    (flatTerrain w d cs h0 s).normal_at x z = some (Vec3.mk 0 1 0) := by
  have hcs0 : 0 < cs := by nlinarith
  have hc : (flatTerrain w d cs h0 s).cell_size = cs := rfl
  simp only [Terrain.normal_at, flatTerrain_height_at w d cs h0 s hw hd,
    sub_self, hc]
  have hlen : (Vec3.mk 0 (2 * cs) 0).length = 2 * cs := by
    simp only [Vec3.length, Vec3.length_squared]
    rw [show (0:ℝ) * 0 + 2 * cs * (2 * cs) + 0 * 0 = (2 * cs) ^ 2 by ring]
    exact Real.sqrt_sq (by linarith)
  simp only [Vec3.normalized, hlen]
  rw [if_neg (by push_neg; linarith)]
  have h2cs : (2 : ℝ) * cs ≠ 0 := by positivity
  simp [h2cs]

theorem flatTerrain_normal_at_world (w d : ℤ) (cs h0 : ℝ) (s : SurfaceType)
    (hw : 0 < w) (hd : 0 < d) (hcs : 1 / 100000000 ≤ 2 * cs)
    (wx wz : ℝ) :
    (flatTerrain w d cs h0 s).normal_at_world wx wz =
      some (Vec3.mk 0 1 0) := by
  simp only [Terrain.normal_at_world]
  exact flatTerrain_normal_at w d cs h0 s hw hd hcs _ _

/-! ### Claim theorems: launch, surface table, clamped lookup,
interpolation identity -/

/-- C4: for every prior ball state, after `launch(ball, v, s)` the
`in_flight` flag is set, `rolling`, `stopped` and `in_water` are clear,
the velocity equals `v` and the spin equals `s`. -/
theorem launch_resets_state (b : BallState) (v s : Vec3) :
    (launch b v s).in_flight = true ∧ (launch b v s).rolling = false ∧
    (launch b v s).stopped = false ∧ (launch b v s).in_water = false ∧
    (launch b v s).velocity = v ∧ (launch b v s).spin = s :=
  ⟨rfl, rfl, rfl, rfl, rfl, rfl⟩

/-- C9: `get_surface` is total over `SurfaceType`, friction and bounce
lie in `[0,1]` for every category, `speed_mult` lies in `(0,1]` for
every category except `Water`, and `Water` has `speed_mult = 0`,
`bounce = 0` and `friction = 1`. -/
theorem get_surface_ranges (st : SurfaceType) :
    0 ≤ (get_surface st).friction ∧ (get_surface st).friction ≤ 1 ∧
    0 ≤ (get_surface st).bounce ∧ (get_surface st).bounce ≤ 1 ∧
    (st = SurfaceType.Water →
      (get_surface st).speed_mult = 0 ∧ (get_surface st).bounce = 0 ∧
      (get_surface st).friction = 1) ∧
    (st ≠ SurfaceType.Water →
      0 < (get_surface st).speed_mult ∧ (get_surface st).speed_mult ≤ 1) := by
  cases st <;> norm_num [get_surface] <;> simp

/-- Witness for C9, instantiated at `Water` and `Fairway`. -/
theorem get_surface_ranges_witness :
    (get_surface SurfaceType.Water).speed_mult = 0 ∧
    0 < (get_surface SurfaceType.Fairway).speed_mult :=
  ⟨((get_surface_ranges SurfaceType.Water).2.2.2.2.1 rfl).1,
   ((get_surface_ranges SurfaceType.Fairway).2.2.2.2.2 (by simp)).1⟩

/-- C7: for every integer index pair, `height_at` / `surface_at` clamp
the indices into range, the resulting flat index is in bounds of the
stored arrays (the `get?` lookup succeeds), and the returned value is
exactly the stored value at the clamped index. -/
theorem lookup_clamped_in_bounds (t : Terrain) (x z : ℤ)
    (hw : 0 < t.width) (hd : 0 < t.depth)
    (hh : t.heights.length = (t.width * t.depth).toNat)
    (hs : t.surfaces.length = (t.width * t.depth).toNat) :
    (cppClamp z 0 (t.depth - 1) * t.width + cppClamp x 0 (t.width - 1)).toNat
      < t.heights.length ∧
    t.heights[(cppClamp z 0 (t.depth - 1) * t.width +
        cppClamp x 0 (t.width - 1)).toNat]? = some (t.height_at x z) ∧
    t.surfaces[(cppClamp z 0 (t.depth - 1) * t.width +
        cppClamp x 0 (t.width - 1)).toNat]? = some (t.surface_at x z) := by
  have hx : cppClamp x 0 (t.width - 1) ≤ t.width - 1 := by
    simp only [cppClamp]; omega
  have hx0 : 0 ≤ cppClamp x 0 (t.width - 1) := le_max_left _ _
  have hz : cppClamp z 0 (t.depth - 1) ≤ t.depth - 1 := by
    simp only [cppClamp]; omega
  have hz0 : 0 ≤ cppClamp z 0 (t.depth - 1) := le_max_left _ _
  have hidx : (cppClamp z 0 (t.depth - 1) * t.width +
      cppClamp x 0 (t.width - 1)).toNat < (t.width * t.depth).toNat := by
    have h1 : cppClamp z 0 (t.depth - 1) * t.width +
        cppClamp x 0 (t.width - 1) ≤ (t.depth - 1) * t.width +
        (t.width - 1) := by
      have := mul_le_mul_of_nonneg_right hz (le_of_lt hw)
      omega
    have h2 : (t.depth - 1) * t.width + (t.width - 1) <
        t.width * t.depth := by ring_nf; omega
    have h3 : 0 < t.width * t.depth := mul_pos hw hd
    have h4 : 0 ≤ cppClamp z 0 (t.depth - 1) * t.width :=
      mul_nonneg hz0 (le_of_lt hw)
    omega
  refine ⟨by omega, ?_, ?_⟩
  · rw [List.getElem?_eq_getElem (by omega)]
    simp only [Terrain.height_at]
    rw [List.getD_eq_getElem?_getD, List.getElem?_eq_getElem (by omega)]
    rfl
  · rw [List.getElem?_eq_getElem (by omega)]
    simp only [Terrain.surface_at]
    rw [List.getD_eq_getElem?_getD, List.getElem?_eq_getElem (by omega)]
    rfl

/-- Witness for C7: a 2×2 terrain, queried far out of range. -/
theorem lookup_clamped_in_bounds_witness :
    (cppClamp (100 : ℤ) 0 (2 - 1) * 2 + cppClamp (-7 : ℤ) 0 (2 - 1)).toNat
      < (flatTerrain 2 2 1 5 SurfaceType.Rough).heights.length ∧
    (flatTerrain 2 2 1 5 SurfaceType.Rough).heights[
        (cppClamp (100 : ℤ) 0 (2 - 1) * 2 +
         cppClamp (-7 : ℤ) 0 (2 - 1)).toNat]?
      = some ((flatTerrain 2 2 1 5 SurfaceType.Rough).height_at (-7) 100) ∧
    (flatTerrain 2 2 1 5 SurfaceType.Rough).surfaces[
        (cppClamp (100 : ℤ) 0 (2 - 1) * 2 +
         cppClamp (-7 : ℤ) 0 (2 - 1)).toNat]?
      = some ((flatTerrain 2 2 1 5 SurfaceType.Rough).surface_at (-7) 100) := by
  have h := lookup_clamped_in_bounds (flatTerrain 2 2 1 5 SurfaceType.Rough)
    (-7) 100 (by norm_num [flatTerrain]) (by norm_num [flatTerrain])
    (by norm_num [flatTerrain]) (by norm_num [flatTerrain])
  simpa [flatTerrain] using h

/-- C5: bilinear interpolation evaluated at the world position of an
in-range integer grid node returns exactly the stored node height. -/
theorem height_at_world_grid_node (t : Terrain) (x z : ℤ)
    (hcs : 0 < t.cell_size) (hw : 2 ≤ t.width) (hd : 2 ≤ t.depth)
    (hx0 : 0 ≤ x) (hx1 : x < t.width) (hz0 : 0 ≤ z) (hz1 : z < t.depth) :
    t.height_at_world (((x : ℝ) - (t.width : ℝ) / 2) * t.cell_size)
        (((z : ℝ) - (t.depth : ℝ) / 2) * t.cell_size) = t.height_at x z := by
  have hcs' : t.cell_size ≠ 0 := ne_of_gt hcs
  have hgx : ((x : ℝ) - (t.width : ℝ) / 2) * t.cell_size / t.cell_size +
      (t.width : ℝ) / 2 = (x : ℝ) := by field_simp; ring
  have hgz : ((z : ℝ) - (t.depth : ℝ) / 2) * t.cell_size / t.cell_size +
      (t.depth : ℝ) / 2 = (z : ℝ) := by field_simp; ring
  simp only [Terrain.height_at_world, hgx, hgz, Int.floor_intCast,
    sub_self, mul_zero, add_zero]

/-- Witness for C5: a 2×2 terrain with distinct node heights, node (1,0). -/
theorem height_at_world_grid_node_witness :
    ({ width := 2, depth := 2, cell_size := 1,
       heights := [10, 20, 30, 40], surfaces := [] } : Terrain).height_at_world
        (((1 : ℤ) : ℝ) - ((2 : ℤ) : ℝ) / 2)
        (((0 : ℤ) : ℝ) - ((2 : ℤ) : ℝ) / 2)
      = ({ width := 2, depth := 2, cell_size := 1,
           heights := [10, 20, 30, 40], surfaces := [] } : Terrain).height_at 1 0 := by
  have h := height_at_world_grid_node
    { width := 2, depth := 2, cell_size := 1,
      heights := [10, 20, 30, 40], surfaces := [] }
    1 0 (by norm_num) (by norm_num) (by norm_num)
    (by norm_num) (by norm_num) (by norm_num) (by norm_num)
  simpa using h

/-- C2: a ball (not stopped, not in water) whose flight step lands it at
or below ground on a Water cell, or whose rolling step starts on a Water
cell, ends that `update()` with `in_water = true` and velocity exactly
`(0,0,0)`; and any state with `in_water` set is left entirely unchanged
by `update()` for every terrain and timestep, until `launch()`. -/
theorem water_absorbing (c : BallConstants) (t : Terrain) (b : BallState)
    (dt : ℝ)
    (hst : b.stopped = false) (hiw : b.in_water = false)
    (hscen :
      (b.in_flight = true ∧ ∃ b1, update_flight c b dt = some b1 ∧
        b1.position.y ≤ t.height_at_world b1.position.x b1.position.z +
          c.radius ∧
        t.surface_at_world b1.position.x b1.position.z =
          SurfaceType.Water) ∨
      (b.in_flight = false ∧ b.rolling = true ∧
        t.surface_at_world b.position.x b.position.z =
          SurfaceType.Water)) :
    ∃ b2, update c t b dt = some b2 ∧ b2.in_water = true ∧
      b2.velocity = Vec3.zero ∧
      ∀ (t' : Terrain) (dt' : ℝ), update c t' b2 dt' = some b2 := by
  rcases hscen with ⟨hif, b1, hup, hcontact, hsurf⟩ | ⟨hif, hroll, hsurf⟩
  · have hu : update c t b dt =
        some { b1 with
               position := ⟨b1.position.x,
                 t.height_at_world b1.position.x b1.position.z + c.radius,
                 b1.position.z⟩,
               in_flight := false,
               in_water := true,
               velocity := Vec3.zero } := by
      simp only [update, hst, hiw, hif, Bool.or_self, Bool.false_eq_true,
        if_false, if_true, hup, Option.some_bind]
      simp only [check_terrain_contact, if_pos hcontact]
      simp [hsurf]
    exact ⟨_, hu, rfl, rfl, fun t' dt' => by simp [update]⟩
  · have hu : update c t b dt =
        some { b with
               position := ⟨b.position.x,
                 t.height_at_world b.position.x b.position.z + c.radius,
                 b.position.z⟩,
               rolling := false,
               in_water := true,
               velocity := Vec3.zero } := by
      simp only [update, hst, hiw, hif, Bool.or_self, Bool.false_eq_true,
        if_false, if_true]
      simp only [hroll, if_true]
      simp [update_rolling, hsurf, hif, hst]
    exact ⟨_, hu, rfl, rfl, fun t' dt' => by simp [update]⟩

/-- The witness terrain for C2: a 2×2 all-Water flat terrain. -/
def waterTerrain : Terrain := flatTerrain 2 2 1 0 SurfaceType.Water

/-- The witness ball for C2: in flight, at rest just above the water. -/
def waterBall : BallState :=
  { position := ⟨0, 0, 0⟩, velocity := Vec3.zero, spin := Vec3.zero,
    in_flight := true }

/-- Witness for C2: the flight step of `waterBall` over `waterTerrain`
ends in the absorbing in-water state. -/
theorem water_absorbing_witness :
    ∃ b2, update defaultConstants waterTerrain waterBall (1/60) = some b2 ∧
      b2.in_water = true ∧ b2.velocity = Vec3.zero ∧
      ∀ (t' : Terrain) (dt' : ℝ),
        update defaultConstants t' b2 dt' = some b2 := by
  apply water_absorbing
  · rfl
  · rfl
  · left
    refine ⟨rfl, waterBall, ?_, ?_, ?_⟩
    · have hsp : (Vec3.sub waterBall.velocity defaultConstants.wind).length
          = 0 := by
        simp only [waterBall, defaultConstants, Vec3.sub, Vec3.zero,
          Vec3.length, Vec3.length_squared]
        norm_num
      simp only [update_flight, hsp]
      norm_num
    · have hg := flatTerrain_height_at_world 2 2 1 0 SurfaceType.Water
        (by norm_num) (by norm_num) waterBall.position.x waterBall.position.z
      rw [show waterTerrain = flatTerrain 2 2 1 0 SurfaceType.Water from rfl,
        hg]
      simp only [waterBall, defaultConstants]
      norm_num
    · exact flatTerrain_surface_at_world 2 2 1 0 SurfaceType.Water
        (by norm_num) (by norm_num) _ _

/-- C6: a ball falling vertically at speed `v > 0` onto flat ground
(normal `(0,1,0)`) of a non-Water surface bounces with vertical speed
exactly `surfaceBounce * (1 - bounce_loss) * v`; that restitution
factor is below 1, so the post-bounce vertical speed is strictly below
`v` — also in the final contact state, where a bounce weaker than
0.5 m/s is additionally zeroed into rolling. -/
theorem bounce_vertical_energy_loss (w d : ℤ) (cs h0 v : ℝ)
    (s : SurfaceType) (b : BallState)
    (hw : 0 < w) (hd : 0 < d) (hcs : 1 / 100000000 ≤ 2 * cs)
    (hs : s ≠ SurfaceType.Water) (hv : 0 < v)
    (hvel : b.velocity = ⟨0, -v, 0⟩)
    (hcontact : b.position.y ≤ h0 + defaultConstants.radius) :
    (bounce_velocity defaultConstants (get_surface s) b.velocity
        (Vec3.mk 0 1 0)).y =
      (get_surface s).bounce * (1 - defaultConstants.bounce_loss) * v ∧
    (get_surface s).bounce * (1 - defaultConstants.bounce_loss) < 1 ∧
    (get_surface s).bounce * (1 - defaultConstants.bounce_loss) * v < v ∧
    ∃ b2, check_terrain_contact defaultConstants
        (flatTerrain w d cs h0 s) b = some b2 ∧
      b2.velocity.y < v ∧
      (1/2 ≤ (get_surface s).bounce * (1 - defaultConstants.bounce_loss) * v →
        b2.velocity.y =
          (get_surface s).bounce * (1 - defaultConstants.bounce_loss) * v) := by
  have hB : 0 ≤ (get_surface s).bounce ∧ (get_surface s).bounce ≤ 1/2 := by
    cases s <;> norm_num [get_surface]
  have hbl : defaultConstants.bounce_loss = 15/100 := rfl
  have hr1 : (get_surface s).bounce * (1 - defaultConstants.bounce_loss)
      < 1 := by rw [hbl]; nlinarith [hB.1, hB.2]
  have hr0 : 0 ≤ (get_surface s).bounce *
      (1 - defaultConstants.bounce_loss) := by
    rw [hbl]; nlinarith [hB.1]
  have hbv : bounce_velocity defaultConstants (get_surface s) b.velocity
      (Vec3.mk 0 1 0) =
      ⟨0, (get_surface s).bounce * (1 - defaultConstants.bounce_loss) * v,
       0⟩ := by
    simp only [bounce_velocity, hvel, Vec3.dot, Vec3.smul, Vec3.sub,
      Vec3.mk.injEq]
    refine ⟨by ring, by ring, by ring⟩
  have hrv : (get_surface s).bounce * (1 - defaultConstants.bounce_loss) * v
      < v := by nlinarith [hr1, hv]
  refine ⟨by rw [hbv], hr1, hrv, ?_⟩
  have hgr := flatTerrain_height_at_world w d cs h0 s hw hd
    b.position.x b.position.z
  have hsurf := flatTerrain_surface_at_world w d cs h0 s hw hd
    b.position.x b.position.z
  have hnrm := flatTerrain_normal_at_world w d cs h0 s hw hd hcs
    b.position.x b.position.z
  have hdot : Vec3.dot b.velocity (Vec3.mk 0 1 0) = -v := by
    simp [hvel, Vec3.dot]
  simp only [check_terrain_contact, hgr, if_pos hcontact, hsurf,
    if_neg hs, hnrm, Option.some_bind, hdot, hbv,
    if_pos (by linarith : -v < (0:ℝ))]
  rcases lt_or_le
      ((get_surface s).bounce * (1 - defaultConstants.bounce_loss) * v)
      (1/2) with hlt | hge
  · rw [if_pos hlt]
    refine ⟨_, rfl, by simpa using hv, ?_⟩
    intro hc
    exact absurd (lt_of_le_of_lt hc hlt) (lt_irrefl _)
  · rw [if_neg (not_lt.mpr hge)]
    exact ⟨_, rfl, by simpa using hrv, fun _ => rfl⟩

/-- Witness for C6: a ball dropping at 10 m/s onto a flat Fairway. -/
theorem bounce_vertical_energy_loss_witness :
    (bounce_velocity defaultConstants (get_surface SurfaceType.Fairway)
        (BallState.mk ⟨0, 0, 0⟩ ⟨0, -10, 0⟩ Vec3.zero true false false
          false).velocity (Vec3.mk 0 1 0)).y =
      (get_surface SurfaceType.Fairway).bounce *
        (1 - defaultConstants.bounce_loss) * 10 ∧
    (get_surface SurfaceType.Fairway).bounce *
      (1 - defaultConstants.bounce_loss) < 1 ∧
    (get_surface SurfaceType.Fairway).bounce *
      (1 - defaultConstants.bounce_loss) * 10 < 10 ∧
    ∃ b2, check_terrain_contact defaultConstants
        (flatTerrain 2 2 1 0 SurfaceType.Fairway)
        (BallState.mk ⟨0, 0, 0⟩ ⟨0, -10, 0⟩ Vec3.zero true false false
          false) = some b2 ∧
      b2.velocity.y < 10 ∧
      (1/2 ≤ (get_surface SurfaceType.Fairway).bounce *
          (1 - defaultConstants.bounce_loss) * 10 →
        b2.velocity.y = (get_surface SurfaceType.Fairway).bounce *
          (1 - defaultConstants.bounce_loss) * 10) :=
  bounce_vertical_energy_loss 2 2 1 0 10 SurfaceType.Fairway
    (BallState.mk ⟨0, 0, 0⟩ ⟨0, -10, 0⟩ Vec3.zero true false false false)
    (by norm_num) (by norm_num) (by norm_num) (by simp) (by norm_num)
    rfl (by norm_num [defaultConstants])

/-! ### Position invariants of the physics step -/

theorem update_flight_flags (c : BallConstants) (b : BallState) (dt : ℝ)
    (b1 : BallState) (h : update_flight c b dt = some b1) :
    b1.in_flight = b.in_flight ∧ b1.rolling = b.rolling ∧
    b1.stopped = b.stopped ∧ b1.in_water = b.in_water := by
  simp only [update_flight] at h
  by_cases hs : (b.velocity.sub c.wind).length < 1/1000
  · rw [if_pos hs] at h
    cases h
    exact ⟨rfl, rfl, rfl, rfl⟩
  · rw [if_neg hs] at h
    rcases Option.bind_eq_some.mp h with ⟨rd, _, h⟩
    rcases Option.bind_eq_some.mp h with ⟨la, _, h⟩
    cases h
    exact ⟨rfl, rfl, rfl, rfl⟩

theorem check_contact_position (c : BallConstants) (t : Terrain)
    (b1 b' : BallState)
    (hc : b1.position.y ≤
      t.height_at_world b1.position.x b1.position.z + c.radius)
    (h : check_terrain_contact c t b1 = some b') :
    b'.position = ⟨b1.position.x,
      t.height_at_world b1.position.x b1.position.z + c.radius,
      b1.position.z⟩ := by
  simp only [check_terrain_contact, if_pos hc] at h
  by_cases hw : t.surface_at_world b1.position.x b1.position.z =
      SurfaceType.Water
  · rw [if_pos hw] at h
    cases h
    rfl
  · rw [if_neg hw] at h
    rcases Option.bind_eq_some.mp h with ⟨n, _, h⟩
    by_cases hd : b1.velocity.dot n < 0
    · rw [if_pos hd] at h
      by_cases hy : (bounce_velocity c
          (get_surface (t.surface_at_world b1.position.x b1.position.z))
          b1.velocity n).y < 1/2
      · rw [if_pos hy] at h
        cases h
        rfl
      · rw [if_neg hy] at h
        cases h
        rfl
    · rw [if_neg hd] at h
      cases h
      rfl

theorem update_rolling_position (c : BallConstants) (t : Terrain)
    (b : BallState) (dt : ℝ) (b' : BallState)
    (h : update_rolling c t b dt = some b') :
    b'.position.y =
      t.height_at_world b'.position.x b'.position.z + c.radius := by
  simp only [update_rolling] at h
  by_cases hw : t.surface_at_world b.position.x b.position.z =
      SurfaceType.Water
  · rw [if_pos hw] at h
    cases h
    rfl
  · rw [if_neg hw] at h
    rcases Option.bind_eq_some.mp h with ⟨n, _, h⟩
    rcases Option.bind_eq_some.mp h with ⟨fa, _, h⟩
    by_cases hv : (Vec3.smul
        (Vec3.add b.velocity (Vec3.smul (Vec3.add (Vec3.sub ⟨0, -c.gravity, 0⟩
          (Vec3.smul n (Vec3.dot ⟨0, -c.gravity, 0⟩ n))) fa) dt))
        (get_surface
          (t.surface_at_world b.position.x b.position.z)).speed_mult).length <
        c.min_speed
    · rw [if_pos hv] at h
      cases h
      rfl
    · rw [if_neg hv] at h
      cases h
      rfl

/-- C10 (amended: the ball additionally is not already in a terminal
`stopped` / `in_water` state, and the `in_flight` / `rolling` flags are
mutually exclusive): a step that returns a state never ends below the
terrain surface plus the ball radius, with equality whenever it ends
rolling or stopped. -/
theorem ball_never_below_terrain (c : BallConstants) (t : Terrain)
    (b : BallState) (dt : ℝ) (b' : BallState)
    (hfl : (b.in_flight = true ∧ b.rolling = false) ∨
           (b.in_flight = false ∧ b.rolling = true))
    (hst : b.stopped = false) (hiw : b.in_water = false)
    (hup : update c t b dt = some b') :
    t.height_at_world b'.position.x b'.position.z + c.radius ≤
      b'.position.y ∧
    ((b'.rolling = true ∨ b'.stopped = true) →
      b'.position.y =
        t.height_at_world b'.position.x b'.position.z + c.radius) := by
  rcases hfl with ⟨hif, hro⟩ | ⟨hif, hro⟩
  · simp only [update, hst, hiw, hif, Bool.or_self, Bool.false_eq_true,
      if_false, if_true] at hup
    rcases Option.bind_eq_some.mp hup with ⟨b1, hb1, hchk⟩
    have hfl1 := update_flight_flags c b dt b1 hb1
    by_cases hc : b1.position.y ≤
        t.height_at_world b1.position.x b1.position.z + c.radius
    · have hpos := check_contact_position c t b1 b' hc hchk
      have hx : b'.position.x = b1.position.x := by rw [hpos]
      have hz : b'.position.z = b1.position.z := by rw [hpos]
      have hy : b'.position.y =
          t.height_at_world b1.position.x b1.position.z + c.radius := by
        rw [hpos]
      rw [hx, hz, hy]
      exact ⟨le_refl _, fun _ => rfl⟩
    · simp only [check_terrain_contact, if_neg hc] at hchk
      cases hchk
      refine ⟨le_of_lt (not_le.mp hc), ?_⟩
      intro hcase
      rcases hcase with hr | hs
      · rw [hfl1.2.1, hro] at hr
        cases hr
      · rw [hfl1.2.2.1, hst] at hs
        cases hs
  · simp only [update, hst, hiw, hif, Bool.or_self, Bool.false_eq_true,
      if_false, if_true, hro] at hup
    have hy := update_rolling_position c t b dt b' hup
    rw [hy]
    exact ⟨le_refl _, fun _ => rfl⟩

/-- The counterexample ball for C10 as literally stated: `in_flight` is
set, but so is the terminal `stopped` flag, so `update()` is a no-op
and the ball stays below the terrain. -/
def contradictoryBall : BallState :=
  { position := ⟨0, -1, 0⟩, velocity := Vec3.zero, spin := Vec3.zero,
    in_flight := true, rolling := false, stopped := true,
    in_water := false }

/-- Counterexample to C10 as stated: a ball with `in_flight` set (but
also `stopped` set, which C10 as stated does not exclude) ends its
`update()` call below the terrain surface. -/
theorem claim10_counterexample :
    (contradictoryBall.in_flight = true ∨
      contradictoryBall.rolling = true) ∧
    update defaultConstants (flatTerrain 2 2 1 0 SurfaceType.Fairway)
      contradictoryBall (1/60) = some contradictoryBall ∧
    contradictoryBall.position.y <
      (flatTerrain 2 2 1 0 SurfaceType.Fairway).height_at_world
        contradictoryBall.position.x contradictoryBall.position.z +
      defaultConstants.radius := by
  refine ⟨Or.inl rfl, by simp [update, contradictoryBall], ?_⟩
  rw [flatTerrain_height_at_world 2 2 1 0 SurfaceType.Fairway
    (by norm_num) (by norm_num)]
  norm_num [contradictoryBall, defaultConstants]

/-! ### Rolling on a flat fairway: the exact one-step behaviour -/

theorem Vec3.length_smul (v : Vec3) (a : ℝ) :
    (v.smul a).length = |a| * v.length := by
  simp only [Vec3.smul, Vec3.length, Vec3.length_squared]
  rw [show v.x * a * (v.x * a) + v.y * a * (v.y * a) + v.z * a * (v.z * a) =
    a ^ 2 * (v.x * v.x + v.y * v.y + v.z * v.z) by ring]
  rw [Real.sqrt_mul (sq_nonneg a), Real.sqrt_sq_eq_abs]

theorem Vec3.length_nonneg (v : Vec3) : 0 ≤ v.length :=
  Real.sqrt_nonneg _

theorem Vec3.length_zero_eq : (Vec3.zero).length = 0 := by
  simp [Vec3.zero, Vec3.length, Vec3.length_squared]

/-- One `update()` of a rolling ball (exclusive flags) on a flat
uniform-Fairway terrain: either the step ends `stopped` with velocity
exactly zero (which happens only from negligible speed or a
below-`min_speed` post-friction speed), or it keeps rolling with speed
exactly `|speed - friction*gravity*dt|`. -/
theorem roll_step (w d : ℤ) (cs h0 dt : ℝ) (b : BallState)
    (hw : 0 < w) (hd : 0 < d) (hcs : 1 / 100000000 ≤ 2 * cs)
    (hif : b.in_flight = false) (hro : b.rolling = true)
    (hst : b.stopped = false) (hiw : b.in_water = false) :
    ∃ b', update defaultConstants (flatTerrain w d cs h0 SurfaceType.Fairway)
        b dt = some b' ∧
      b'.in_flight = false ∧ b'.in_water = false ∧
      ((b'.stopped = true ∧ b'.rolling = false ∧ b'.velocity = Vec3.zero ∧
          (b.speed ≤ 1/1000 ∨
            |b.speed - 10/100 * (981/100) * dt| < 2/100)) ∨
       (b'.stopped = false ∧ b'.rolling = true ∧
          b'.speed = |b.speed - 10/100 * (981/100) * dt| ∧
          2/100 ≤ b'.speed ∧ 1/1000 < b.speed)) := by
  have hsurf := flatTerrain_surface_at_world w d cs h0 SurfaceType.Fairway
    hw hd b.position.x b.position.z
  have hnrm := flatTerrain_normal_at_world w d cs h0 SurfaceType.Fairway
    hw hd hcs b.position.x b.position.z
  simp only [update, hst, hiw, hif, hro, Bool.or_self, Bool.false_eq_true,
    if_false, if_true]
  simp only [update_rolling, hsurf, hnrm, Option.some_bind]
  rw [if_neg (by simp : ¬(SurfaceType.Fairway = SurfaceType.Water))]
  have hmin : defaultConstants.min_speed = 2/100 := rfl
  by_cases hs : b.velocity.length > 1/1000
  · have hs0 : (0:ℝ) < b.velocity.length := by linarith
    have hsne : b.velocity.length ≠ 0 := ne_of_gt hs0
    have hnv : b.velocity.normalized =
        some (Vec3.mk (b.velocity.x / b.velocity.length)
          (b.velocity.y / b.velocity.length)
          (b.velocity.z / b.velocity.length)) := by
      simp only [Vec3.normalized]
      rw [if_neg (by push_neg; linarith)]
    rw [if_pos hs, hnv]
    simp only [Option.map_some', Option.some_bind]
    have hV2 :
        Vec3.smul (Vec3.add b.velocity (Vec3.smul (Vec3.add
          (Vec3.sub (Vec3.mk 0 (-defaultConstants.gravity) 0)
            (Vec3.smul (Vec3.mk 0 1 0)
              (Vec3.dot (Vec3.mk 0 (-defaultConstants.gravity) 0)
                (Vec3.mk 0 1 0))))
          (Vec3.smul (Vec3.smul (Vec3.mk
              (b.velocity.x / b.velocity.length)
              (b.velocity.y / b.velocity.length)
              (b.velocity.z / b.velocity.length)) (-1))
            ((get_surface SurfaceType.Fairway).friction *
              defaultConstants.gravity))) dt))
          (get_surface SurfaceType.Fairway).speed_mult
        = b.velocity.smul
            (1 - 10/100 * (981/100) * dt / b.velocity.length) := by
      simp only [Vec3.smul, Vec3.add, Vec3.sub, Vec3.dot, Vec3.mk.injEq,
        get_surface]
      norm_num [defaultConstants]
      refine ⟨by ring, by ring, by ring⟩
    rw [hV2]
    have hlen2 : (b.velocity.smul
        (1 - 10/100 * (981/100) * dt / b.velocity.length)).length =
        |b.velocity.length - 10/100 * (981/100) * dt| := by
      rw [Vec3.length_smul]
      rw [show (1 - 10/100 * (981/100) * dt / b.velocity.length) =
        (b.velocity.length - 10/100 * (981/100) * dt) /
          b.velocity.length by field_simp; ring]
      rw [abs_div, abs_of_pos hs0]
      field_simp
    by_cases hstop : |b.velocity.length - 10/100 * (981/100) * dt| < 2/100
    · rw [if_pos (by rw [hlen2, hmin]; exact hstop)]
      exact ⟨_, rfl, hif, hiw, Or.inl ⟨rfl, rfl, rfl, Or.inr hstop⟩⟩
    · rw [if_neg (by rw [hlen2, hmin]; exact hstop)]
      refine ⟨_, rfl, hif, hiw, Or.inr ⟨hst, hro, hlen2, ?_, hs⟩⟩
      show (2:ℝ)/100 ≤ (b.velocity.smul
        (1 - 10/100 * (981/100) * dt / b.velocity.length)).length
      rw [hlen2]
      exact not_lt.mp hstop
  · rw [if_neg hs]
    simp only [Option.some_bind]
    have hV2' :
        Vec3.smul (Vec3.add b.velocity (Vec3.smul (Vec3.add
          (Vec3.sub (Vec3.mk 0 (-defaultConstants.gravity) 0)
            (Vec3.smul (Vec3.mk 0 1 0)
              (Vec3.dot (Vec3.mk 0 (-defaultConstants.gravity) 0)
                (Vec3.mk 0 1 0))))
          Vec3.zero) dt))
          (get_surface SurfaceType.Fairway).speed_mult
        = b.velocity := by
      simp only [Vec3.smul, Vec3.add, Vec3.sub, Vec3.dot, Vec3.zero,
        get_surface]
      norm_num
    rw [hV2']
    have hsmall : b.velocity.length < defaultConstants.min_speed := by
      rw [hmin]; push_neg at hs; linarith
    rw [if_pos hsmall]
    exact ⟨_, rfl, hif, hiw, Or.inl ⟨rfl, rfl, rfl, Or.inl (not_lt.mp hs)⟩⟩

/-- Runs `n` successive `update()` calls with the same terrain and timestep. -/
def iterateUpdate (c : BallConstants) (t : Terrain) (dt : ℝ) :
    ℕ → BallState → Option BallState
  | 0, b => some b
  | n + 1, b => (update c t b dt).bind (iterateUpdate c t dt n)

theorem stopped_update_noop (c : BallConstants) (t : Terrain)
    (b : BallState) (dt : ℝ) (h : b.stopped = true) :
    update c t b dt = some b := by
  simp [update, h]

theorem iterate_stopped (c : BallConstants) (t : Terrain) (dt : ℝ)
    (n : ℕ) (b : BallState) (h : b.stopped = true) :
    iterateUpdate c t dt n b = some b := by
  induction n with
  | zero => rfl
  | succ n ih =>
    simp only [iterateUpdate, stopped_update_noop c t b dt h,
      Option.some_bind]
    exact ih

theorem roll_terminates (w d : ℤ) (cs h0 dt : ℝ)
    (hw : 0 < w) (hd : 0 < d) (hcs : 1 / 100000000 ≤ 2 * cs)
    (hdt : 0 < dt) (hFb : 10/100 * (981/100) * dt ≤ 2/100) :
    ∀ (n : ℕ) (b : BallState), b.in_flight = false → b.rolling = true →
      b.stopped = false → b.in_water = false →
      b.speed < (n : ℝ) * (10/100 * (981/100) * dt) →
      ∃ bn, iterateUpdate defaultConstants
          (flatTerrain w d cs h0 SurfaceType.Fairway) dt n b = some bn ∧
        bn.stopped = true ∧ bn.velocity = Vec3.zero := by
  intro n
  induction n with
  | zero =>
    intro b _ _ _ _ hlt
    refine absurd hlt (not_lt.mpr ?_)
    have := Vec3.length_nonneg b.velocity
    simpa [BallState.speed] using this
  | succ n ih =>
    intro b hif hro hst hiw hlt
    obtain ⟨b', hup, hif', hiw', hcase⟩ :=
      roll_step w d cs h0 dt b hw hd hcs hif hro hst hiw
    rcases hcase with ⟨hstp, _, hvel, _⟩ | ⟨hstp, hrol, hspd, hge, hs⟩
    · refine ⟨b', ?_, hstp, hvel⟩
      simp only [iterateUpdate, hup, Option.some_bind]
      exact iterate_stopped _ _ _ n b' hstp
    · have hF0 : 0 < 10/100 * (981/100) * dt := by positivity
      have hsF : 10/100 * (981/100) * dt ≤ b.speed := by
        by_contra hc
        push_neg at hc
        have h1 : |b.speed - 10/100 * (981/100) * dt| =
            10/100 * (981/100) * dt - b.speed := by
          rw [abs_of_neg (by linarith)]; ring
        have h2 : 10/100 * (981/100) * dt - b.speed < 2/100 := by
          have : (0:ℝ) < b.speed := lt_trans (by norm_num) hs
          linarith
        rw [hspd, h1] at hge
        linarith
      have hspd' : b'.speed = b.speed - 10/100 * (981/100) * dt := by
        rw [hspd, abs_of_nonneg (by linarith)]
      obtain ⟨bn, hit, hstpn, hveln⟩ := ih b' hif' hrol hstp hiw' (by
        rw [hspd']
        push_cast at hlt ⊢
        linarith)
      refine ⟨bn, ?_, hstpn, hveln⟩
      simp only [iterateUpdate, hup, Option.some_bind]
      exact hit

/-- C3 (amended: the timestep must be positive and frame-sized —
`friction * gravity * dt ≤ min_speed` — and the number of steps needed
is `initialSpeed / (friction * gravity * dt)`; for larger `dt` the
friction impulse can overshoot and speed can grow, see the
counterexample): on a flat uniform-Fairway terrain the speed after each
`update(dt)` is at most the speed before, and after
`n > speed/(friction*gravity*dt)` calls the ball is stopped with
velocity exactly `(0,0,0)`. -/
theorem rolling_flat_monotone_and_stops (w d : ℤ) (cs h0 dt : ℝ)
    (b : BallState)
    (hw : 0 < w) (hd : 0 < d) (hcs : 1 / 100000000 ≤ 2 * cs)
    (hdt : 0 < dt) (hFb : 10/100 * (981/100) * dt ≤ 2/100)
    (hif : b.in_flight = false) (hro : b.rolling = true)
    (hst : b.stopped = false) (hiw : b.in_water = false) :
    (∀ b', update defaultConstants
        (flatTerrain w d cs h0 SurfaceType.Fairway) b dt = some b' →
      b'.speed ≤ b.speed) ∧
    (∀ n : ℕ, b.speed < (n : ℝ) * (10/100 * (981/100) * dt) →
      ∃ bn, iterateUpdate defaultConstants
          (flatTerrain w d cs h0 SurfaceType.Fairway) dt n b = some bn ∧
        bn.stopped = true ∧ bn.velocity = Vec3.zero) := by
  constructor
  · intro b'' hup''
    obtain ⟨b', hup, _, _, hcase⟩ :=
      roll_step w d cs h0 dt b hw hd hcs hif hro hst hiw
    rw [hup] at hup''
    injection hup'' with hbb
    subst hbb
    rcases hcase with ⟨_, _, hvel, _⟩ | ⟨_, _, hspd, hge, hs⟩
    · have hz : b'.speed = 0 := by
        rw [BallState.speed, hvel]
        exact Vec3.length_zero_eq
      rw [hz]
      exact Vec3.length_nonneg b.velocity
    · rcases le_or_lt (10/100 * (981/100) * dt) b.speed with hle | hgt
      · rw [hspd, abs_of_nonneg (by linarith)]
        linarith
      · exfalso
        have h1 : |b.speed - 10/100 * (981/100) * dt| =
            10/100 * (981/100) * dt - b.speed := by
          rw [abs_of_neg (by linarith)]; ring
        have h2 : (0:ℝ) < b.speed := lt_trans (by norm_num) hs
        rw [hspd, h1] at hge
        linarith
  · exact fun n hn => roll_terminates w d cs h0 dt hw hd hcs hdt hFb n b
      hif hro hst hiw hn

/-- Witness for C3's amended theorem: a slow roll (1 cm/s) on a flat
Fairway at `dt = 1/60` stops within one step with velocity zero. -/
theorem rolling_flat_monotone_and_stops_witness :
    ∃ bn, iterateUpdate defaultConstants
        (flatTerrain 2 2 1 0 SurfaceType.Fairway) (1/60) 1
        (BallState.mk ⟨0, 0, 0⟩ ⟨1/100, 0, 0⟩ Vec3.zero
          false true false false) = some bn ∧
      bn.stopped = true ∧ bn.velocity = Vec3.zero := by
  have hsp : (BallState.mk ⟨0, 0, 0⟩ ⟨1/100, 0, 0⟩ Vec3.zero
      false true false false).speed = 1/100 := by
    simp only [BallState.speed, Vec3.length, Vec3.length_squared]
    rw [show ((1:ℝ)/100 * (1/100) + 0 * 0 + 0 * 0) = (1/100)^2 by ring]
    exact Real.sqrt_sq (by norm_num)
  refine (rolling_flat_monotone_and_stops 2 2 1 0 (1/60)
    (BallState.mk ⟨0, 0, 0⟩ ⟨1/100, 0, 0⟩ Vec3.zero false true false false)
    (by norm_num) (by norm_num) (by norm_num) (by norm_num) (by norm_num)
    rfl rfl rfl rfl).2 1 ?_
  rw [hsp]
  norm_num

/-- Counterexample to C3 as stated (no bound on `dt`): a rolling ball at
3 cm/s on a flat Fairway, stepped with `dt = 1`, speeds up to 0.951 m/s
— the friction impulse `friction*gravity*dt = 0.981` overshoots and
reverses the velocity. -/
theorem claim3_counterexample :
    ∃ b', update defaultConstants (flatTerrain 2 2 1 0 SurfaceType.Fairway)
        (BallState.mk ⟨0, 0, 0⟩ ⟨3/100, 0, 0⟩ Vec3.zero
          false true false false) 1 = some b' ∧
      (BallState.mk ⟨0, 0, 0⟩ ⟨3/100, 0, 0⟩ Vec3.zero
        false true false false).speed < b'.speed := by
  obtain ⟨b', hup, _, _, hcase⟩ := roll_step 2 2 1 0 1
    (BallState.mk ⟨0, 0, 0⟩ ⟨3/100, 0, 0⟩ Vec3.zero false true false false)
    (by norm_num) (by norm_num) (by norm_num) rfl rfl rfl rfl
  have hsp : (BallState.mk ⟨0, 0, 0⟩ ⟨3/100, 0, 0⟩ Vec3.zero
      false true false false).speed = 3/100 := by
    simp only [BallState.speed, Vec3.length, Vec3.length_squared]
    rw [show ((3:ℝ)/100 * (3/100) + 0 * 0 + 0 * 0) = (3/100)^2 by ring]
    exact Real.sqrt_sq (by norm_num)
  have habs : |(3:ℝ)/100 - 10/100 * (981/100) * 1| = 951/1000 := by
    rw [abs_of_neg (by norm_num)]
    norm_num
  rcases hcase with ⟨_, _, _, hbad⟩ | ⟨_, _, hspd, _, _⟩
  · rcases hbad with h1 | h2
    · rw [hsp] at h1
      norm_num at h1
    · rw [hsp, habs] at h2
      norm_num at h2
  · refine ⟨b', hup, ?_⟩
    rw [hsp, hspd, hsp, habs]
    norm_num

/-- Witness for C10's amended theorem: a rolling ball on a flat
Fairway ends its step exactly on the terrain surface. -/
theorem ball_never_below_terrain_witness :
    ∃ b', update defaultConstants (flatTerrain 2 2 1 0 SurfaceType.Fairway)
        (BallState.mk ⟨0, 2135/100000, 0⟩ Vec3.zero Vec3.zero
          false true false false) (1/60) = some b' ∧
      (flatTerrain 2 2 1 0 SurfaceType.Fairway).height_at_world
          b'.position.x b'.position.z + defaultConstants.radius ≤
        b'.position.y := by
  obtain ⟨b', hup, _, _, _⟩ := roll_step 2 2 1 0 (1/60)
    (BallState.mk ⟨0, 2135/100000, 0⟩ Vec3.zero Vec3.zero
      false true false false)
    (by norm_num) (by norm_num) (by norm_num) rfl rfl rfl rfl
  exact ⟨b', hup, (ball_never_below_terrain defaultConstants
    (flatTerrain 2 2 1 0 SurfaceType.Fairway)
    (BallState.mk ⟨0, 2135/100000, 0⟩ Vec3.zero Vec3.zero
      false true false false) (1/60) b'
    (Or.inr ⟨rfl, rfl⟩) rfl rfl hup).1⟩

/-! ### Grid index and bounding-box lemmas for the stamping geometry -/

theorem getD_set_ne {α : Type} (l : List α) (i j : ℕ) (a d : α)
    (h : i ≠ j) : (l.set i a).getD j d = l.getD j d := by
  rw [List.getD_eq_getElem?_getD, List.getD_eq_getElem?_getD,
    List.getElem?_set_ne h]

theorem getD_set_self {α : Type} (l : List α) (i : ℕ) (a d : α)
    (h : i < l.length) : (l.set i a).getD i d = a := by
  rw [List.getD_eq_getElem?_getD, List.getElem?_set_eq_of_lt a h]
  rfl

theorem foldl_invariant {α β : Type} (f : α → β → α) (P : α → Prop)
    (l : List β) (hstep : ∀ a b, b ∈ l → P a → P (f a b)) :
    ∀ a0, P a0 → P (l.foldl f a0) := by
  induction l with
  | nil => exact fun a0 h => h
  | cons b l ih =>
    intro a0 h0
    exact ih (fun a b' hb' => hstep a b' (List.mem_cons_of_mem b hb'))
      (f a0 b) (hstep a0 b (List.mem_cons_self b l) h0)

/-- Row-major flat indices of distinct in-range cells are distinct. -/
theorem gridIdx_inj (w x z x' z' : ℤ)
    (hx0 : 0 ≤ x) (hx1 : x < w) (hx0' : 0 ≤ x') (hx1' : x' < w)
    (hz0 : 0 ≤ z) (hz0' : 0 ≤ z')
    (h : (z' * w + x').toNat = (z * w + x).toNat) : x' = x ∧ z' = z := by
  have hw : 0 < w := lt_of_le_of_lt hx0 hx1
  have hn1 : 0 ≤ z' * w + x' :=
    add_nonneg (mul_nonneg hz0' (le_of_lt hw)) hx0'
  have hn2 : 0 ≤ z * w + x :=
    add_nonneg (mul_nonneg hz0 (le_of_lt hw)) hx0
  have hsum : z' * w + x' = z * w + x := by
    rw [← Int.toNat_of_nonneg hn1, ← Int.toNat_of_nonneg hn2, h]
  have hx'x : x' = x := by
    have e1 : (x' + z' * w) % w = x' % w := Int.add_mul_emod_self
    have e2 : (x + z * w) % w = x % w := Int.add_mul_emod_self
    rw [Int.emod_eq_of_lt hx0' hx1'] at e1
    rw [Int.emod_eq_of_lt hx0 hx1] at e2
    rw [show x' + z' * w = z' * w + x' by ring, hsum,
      show z * w + x = x + z * w by ring, e2] at e1
    exact e1.symm
  refine ⟨hx'x, ?_⟩
  have : z' * w = z * w := by omega
  exact mul_right_cancel₀ (ne_of_gt hw) this

theorem bboxCells_mem (gx0 gz0 gx1 gz1 : ℤ) (p : ℤ × ℤ) :
    p ∈ bboxCells gx0 gz0 gx1 gz1 ↔
      gx0 ≤ p.1 ∧ p.1 ≤ gx1 ∧ gz0 ≤ p.2 ∧ p.2 ≤ gz1 := by
  constructor
  · intro hp
    simp only [bboxCells, List.mem_map, List.mem_range] at hp
    obtain ⟨i, hi, rfl⟩ := hp
    have hW : 0 < (gx1 - gx0 + 1).toNat := by
      rcases Nat.eq_zero_or_pos (gx1 - gx0 + 1).toNat with h | h
      · rw [h, Nat.mul_zero] at hi
        exact absurd hi (Nat.not_lt_zero i)
      · exact h
    have hD : 0 < (gz1 - gz0 + 1).toNat := by
      rcases Nat.eq_zero_or_pos (gz1 - gz0 + 1).toNat with h | h
      · rw [h, Nat.zero_mul] at hi
        exact absurd hi (Nat.not_lt_zero i)
      · exact h
    have h2 : i % (gx1 - gx0 + 1).toNat < (gx1 - gx0 + 1).toNat :=
      Nat.mod_lt _ hW
    have h3 : i / (gx1 - gx0 + 1).toNat < (gz1 - gz0 + 1).toNat :=
      (Nat.div_lt_iff_lt_mul hW).mpr hi
    have e2 : ((i % (gx1 - gx0 + 1).toNat : ℕ) : ℤ) <
        (((gx1 - gx0 + 1).toNat : ℕ) : ℤ) := by exact_mod_cast h2
    have e3 : ((i / (gx1 - gx0 + 1).toNat : ℕ) : ℤ) <
        (((gz1 - gz0 + 1).toNat : ℕ) : ℤ) := by exact_mod_cast h3
    have eW : (((gx1 - gx0 + 1).toNat : ℕ) : ℤ) = gx1 - gx0 + 1 :=
      Int.toNat_of_nonneg (by omega)
    have eD : (((gz1 - gz0 + 1).toNat : ℕ) : ℤ) = gz1 - gz0 + 1 :=
      Int.toNat_of_nonneg (by omega)
    have n2 : (0:ℤ) ≤ ((i % (gx1 - gx0 + 1).toNat : ℕ) : ℤ) :=
      Int.natCast_nonneg _
    have n3 : (0:ℤ) ≤ ((i / (gx1 - gx0 + 1).toNat : ℕ) : ℤ) :=
      Int.natCast_nonneg _
    dsimp only
    refine ⟨by linarith, by linarith, by linarith, by linarith⟩
  · rintro ⟨h1, h2, h3, h4⟩
    have hWpos : 0 < gx1 - gx0 + 1 := by omega
    have hDpos : 0 < gz1 - gz0 + 1 := by omega
    simp only [bboxCells, List.mem_map, List.mem_range]
    refine ⟨(p.2 - gz0).toNat * (gx1 - gx0 + 1).toNat +
      (p.1 - gx0).toNat, ?_, ?_⟩
    · have ha : (p.2 - gz0).toNat < (gz1 - gz0 + 1).toNat := by omega
      have hb : (p.1 - gx0).toNat < (gx1 - gx0 + 1).toNat := by omega
      calc (p.2 - gz0).toNat * (gx1 - gx0 + 1).toNat +
            (p.1 - gx0).toNat
          < (p.2 - gz0).toNat * (gx1 - gx0 + 1).toNat +
            (gx1 - gx0 + 1).toNat := by omega
        _ = ((p.2 - gz0).toNat + 1) * (gx1 - gx0 + 1).toNat := by ring
        _ ≤ (gz1 - gz0 + 1).toNat * (gx1 - gx0 + 1).toNat :=
            Nat.mul_le_mul_right _ (by omega)
    · have hb : (p.1 - gx0).toNat < (gx1 - gx0 + 1).toNat := by omega
      have hmod : ((p.2 - gz0).toNat * (gx1 - gx0 + 1).toNat +
          (p.1 - gx0).toNat) % (gx1 - gx0 + 1).toNat =
          (p.1 - gx0).toNat := by
        rw [show (p.2 - gz0).toNat * (gx1 - gx0 + 1).toNat =
          (gx1 - gx0 + 1).toNat * (p.2 - gz0).toNat by ring,
          Nat.mul_add_mod, Nat.mod_eq_of_lt hb]
      have hdiv : ((p.2 - gz0).toNat * (gx1 - gx0 + 1).toNat +
          (p.1 - gx0).toNat) / (gx1 - gx0 + 1).toNat =
          (p.2 - gz0).toNat := by
        rw [show (p.2 - gz0).toNat * (gx1 - gx0 + 1).toNat =
          (gx1 - gx0 + 1).toNat * (p.2 - gz0).toNat by ring,
          Nat.mul_add_div (by omega), Nat.div_eq_of_lt hb, Nat.add_zero]
      rw [hmod, hdiv]
      have : (((p.1 - gx0).toNat : ℤ)) = p.1 - gx0 := by omega
      have : (((p.2 - gz0).toNat : ℤ)) = p.2 - gz0 := by omega
      refine Prod.ext ?_ ?_ <;> simp only [] <;> omega

theorem bboxCells_nodup (gx0 gz0 gx1 gz1 : ℤ) :
    (bboxCells gx0 gz0 gx1 gz1).Nodup := by
  refine List.Nodup.map ?_ (List.nodup_range _)
  intro i j hij
  simp only [Prod.mk.injEq] at hij
  obtain ⟨h1, h2⟩ := hij
  have h1' : i % (gx1 - gx0 + 1).toNat = j % (gx1 - gx0 + 1).toNat := by
    omega
  have h2' : i / (gx1 - gx0 + 1).toNat = j / (gx1 - gx0 + 1).toNat := by
    omega
  rw [← Nat.div_add_mod i (gx1 - gx0 + 1).toNat,
    ← Nat.div_add_mod j (gx1 - gx0 + 1).toNat, h1', h2']

theorem cppTrunc_le_of_le (g : ℝ) (n : ℤ) (h : g ≤ (n : ℝ)) :
    cppTrunc g ≤ n := by
  unfold cppTrunc
  split_ifs with h0
  · have := Int.floor_le_floor h
    rwa [Int.floor_intCast] at this
  · exact Int.ceil_le.mpr h

theorem le_cppTrunc_of_le (n : ℤ) (g : ℝ) (h : (n : ℝ) ≤ g) :
    n ≤ cppTrunc g := by
  unfold cppTrunc
  split_ifs with h0
  · exact Int.le_floor.mpr h
  · exact Int.cast_le.mp (le_trans h (Int.le_ceil g))

/-- Applying `paint_cell` at a different in-range cell does not change the value
stored at `(x,z)`, and preserves the array lengths. -/
theorem paint_cell_getD_ne (t : Terrain) (cx cz radius : ℝ)
    (surface : SurfaceType) (off : ℝ) (flatten : Bool)
    (x z : ℤ) (hx0 : 0 ≤ x) (hx1 : x < t.width) (hz0 : 0 ≤ z)
    (acc : List SurfaceType × List ℝ) (p : ℤ × ℤ)
    (hp0 : 0 ≤ p.1) (hp1 : p.1 < t.width) (hp2 : 0 ≤ p.2)
    (hne : p ≠ (x, z)) :
    (paint_cell t cx cz radius surface off flatten acc p).1.getD
        (z * t.width + x).toNat SurfaceType.Tee =
      acc.1.getD (z * t.width + x).toNat SurfaceType.Tee ∧
    (paint_cell t cx cz radius surface off flatten acc p).2.getD
        (z * t.width + x).toNat 0 =
      acc.2.getD (z * t.width + x).toNat 0 ∧
    (paint_cell t cx cz radius surface off flatten acc p).1.length =
      acc.1.length ∧
    (paint_cell t cx cz radius surface off flatten acc p).2.length =
      acc.2.length := by
  have hidx : (p.2 * t.width + p.1).toNat ≠ (z * t.width + x).toNat := by
    intro h
    obtain ⟨he1, he2⟩ :=
      gridIdx_inj t.width x z p.1 p.2 hx0 hx1 hp0 hp1 hz0 hp2 h
    exact hne (Prod.ext he1 he2)
  simp only [paint_cell]
  split_ifs with h1 h2 h3
  · exact ⟨getD_set_ne _ _ _ _ _ hidx, getD_set_ne _ _ _ _ _ hidx,
      by simp, by simp⟩
  · exact ⟨getD_set_ne _ _ _ _ _ hidx, getD_set_ne _ _ _ _ _ hidx,
      by simp, by simp⟩
  · exact ⟨getD_set_ne _ _ _ _ _ hidx, rfl, by simp, rfl⟩
  · exact ⟨rfl, rfl, rfl, rfl⟩

/-- Applying `paint_cell` at a cell strictly outside the radius is the identity. -/
theorem paint_cell_skip (t : Terrain) (cx cz radius : ℝ)
    (surface : SurfaceType) (off : ℝ) (flatten : Bool) (x z : ℤ)
    (acc : List SurfaceType × List ℝ)
    (hfar : ¬ (Real.sqrt
      ((((x : ℝ) - (t.width : ℝ) / 2) * t.cell_size - cx) *
       (((x : ℝ) - (t.width : ℝ) / 2) * t.cell_size - cx) +
       (((z : ℝ) - (t.depth : ℝ) / 2) * t.cell_size - cz) *
       (((z : ℝ) - (t.depth : ℝ) / 2) * t.cell_size - cz)) ≤ radius)) :
    paint_cell t cx cz radius surface off flatten acc (x, z) = acc := by
  simp only [paint_cell]
  rw [if_neg hfar]

/-- Applying `paint_cell` at the target cell, inside the radius, in flatten
mode: the surface is overwritten and the height receives the blended
value actually computed by the source (note the trailing
`+ height_offset`). -/
theorem paint_cell_target_flatten (t : Terrain) (cx cz radius : ℝ)
    (surface : SurfaceType) (off : ℝ) (x z : ℤ)
    (acc : List SurfaceType × List ℝ)
    (hS : (z * t.width + x).toNat < acc.1.length)
    (hH : (z * t.width + x).toNat < acc.2.length)
    (hnear : Real.sqrt
      ((((x : ℝ) - (t.width : ℝ) / 2) * t.cell_size - cx) *
       (((x : ℝ) - (t.width : ℝ) / 2) * t.cell_size - cx) +
       (((z : ℝ) - (t.depth : ℝ) / 2) * t.cell_size - cz) *
       (((z : ℝ) - (t.depth : ℝ) / 2) * t.cell_size - cz)) ≤ radius) :
    (paint_cell t cx cz radius surface off true acc (x, z)).1.getD
        (z * t.width + x).toNat SurfaceType.Tee = surface ∧
    (paint_cell t cx cz radius surface off true acc (x, z)).2.getD
        (z * t.width + x).toNat 0 =
      acc.2.getD (z * t.width + x).toNat 0 *
        (Real.sqrt
          ((((x : ℝ) - (t.width : ℝ) / 2) * t.cell_size - cx) *
           (((x : ℝ) - (t.width : ℝ) / 2) * t.cell_size - cx) +
           (((z : ℝ) - (t.depth : ℝ) / 2) * t.cell_size - cz) *
           (((z : ℝ) - (t.depth : ℝ) / 2) * t.cell_size - cz)) / radius) +
      (t.height_at x z + off) *
        (1 - Real.sqrt
          ((((x : ℝ) - (t.width : ℝ) / 2) * t.cell_size - cx) *
           (((x : ℝ) - (t.width : ℝ) / 2) * t.cell_size - cx) +
           (((z : ℝ) - (t.depth : ℝ) / 2) * t.cell_size - cz) *
           (((z : ℝ) - (t.depth : ℝ) / 2) * t.cell_size - cz)) / radius) +
      off ∧
    (paint_cell t cx cz radius surface off true acc (x, z)).1.length =
      acc.1.length ∧
    (paint_cell t cx cz radius surface off true acc (x, z)).2.length =
      acc.2.length := by
  simp only [paint_cell]
  rw [if_pos hnear]
  refine ⟨?_, ?_, by simp, by simp⟩
  · simp only [if_pos rfl]
    exact getD_set_self _ _ _ _ hS
  · simp only [if_pos rfl]
    exact getD_set_self _ _ _ _ hH

/-- Folding `paint_cell` over a list of in-range cells that excludes
`(x,z)` does not change the value stored at `(x,z)` and preserves the
lengths. -/
theorem paint_fold_frame (t : Terrain) (cx cz radius : ℝ)
    (surface : SurfaceType) (off : ℝ) (flatten : Bool)
    (x z : ℤ) (hx0 : 0 ≤ x) (hx1 : x < t.width) (hz0 : 0 ≤ z)
    (l : List (ℤ × ℤ))
    (hl : ∀ p ∈ l, (0 ≤ p.1 ∧ p.1 < t.width ∧ 0 ≤ p.2) ∧ p ≠ (x, z))
    (acc : List SurfaceType × List ℝ) :
    (l.foldl (paint_cell t cx cz radius surface off flatten) acc).1.getD
        (z * t.width + x).toNat SurfaceType.Tee =
      acc.1.getD (z * t.width + x).toNat SurfaceType.Tee ∧
    (l.foldl (paint_cell t cx cz radius surface off flatten) acc).2.getD
        (z * t.width + x).toNat 0 =
      acc.2.getD (z * t.width + x).toNat 0 ∧
    (l.foldl (paint_cell t cx cz radius surface off flatten) acc).1.length
      = acc.1.length ∧
    (l.foldl (paint_cell t cx cz radius surface off flatten) acc).2.length
      = acc.2.length := by
  refine foldl_invariant _ (fun a =>
    a.1.getD (z * t.width + x).toNat SurfaceType.Tee =
      acc.1.getD (z * t.width + x).toNat SurfaceType.Tee ∧
    a.2.getD (z * t.width + x).toNat 0 =
      acc.2.getD (z * t.width + x).toNat 0 ∧
    a.1.length = acc.1.length ∧ a.2.length = acc.2.length) l
    ?_ acc ⟨rfl, rfl, rfl, rfl⟩
  intro a p hp ⟨ha1, ha2, ha3, ha4⟩
  obtain ⟨⟨hp0, hp1, hp2⟩, hpne⟩ := hl p hp
  obtain ⟨hb1, hb2, hb3, hb4⟩ := paint_cell_getD_ne t cx cz radius surface
    off flatten x z hx0 hx1 hz0 a p hp0 hp1 hp2 hpne
  exact ⟨hb1.trans ha1, hb2.trans ha2, hb3.trans ha3, hb4.trans ha4⟩

/-- Cells strictly outside the circle are untouched by `paint_circle`. -/
theorem paint_circle_frame (t : Terrain) (S : List SurfaceType)
    (H : List ℝ) (cx cz radius : ℝ) (surface : SurfaceType) (off : ℝ)
    (flatten : Bool) (x z : ℤ)
    (hx0 : 0 ≤ x) (hx1 : x < t.width) (hz0 : 0 ≤ z) (hz1 : z < t.depth)
    (hfar : radius < Real.sqrt
      ((((x : ℝ) - (t.width : ℝ) / 2) * t.cell_size - cx) *
       (((x : ℝ) - (t.width : ℝ) / 2) * t.cell_size - cx) +
       (((z : ℝ) - (t.depth : ℝ) / 2) * t.cell_size - cz) *
       (((z : ℝ) - (t.depth : ℝ) / 2) * t.cell_size - cz))) :
    (paint_circle t S H cx cz radius surface off flatten).1.getD
        (z * t.width + x).toNat SurfaceType.Tee =
      S.getD (z * t.width + x).toNat SurfaceType.Tee ∧
    (paint_circle t S H cx cz radius surface off flatten).2.getD
        (z * t.width + x).toNat 0 =
      H.getD (z * t.width + x).toNat 0 := by
  have hpc : paint_circle t S H cx cz radius surface off flatten =
      (bboxCells (max 0 (world_to_grid t (cx - radius) (cz - radius)).1)
        (max 0 (world_to_grid t (cx - radius) (cz - radius)).2)
        (min (t.width - 1)
          (world_to_grid t (cx + radius) (cz + radius)).1)
        (min (t.depth - 1)
          (world_to_grid t (cx + radius) (cz + radius)).2)).foldl
        (paint_cell t cx cz radius surface off flatten) (S, H) := rfl
  rw [hpc]
  refine foldl_invariant
    (paint_cell t cx cz radius surface off flatten)
    (fun a => a.1.getD (z * t.width + x).toNat SurfaceType.Tee =
        S.getD (z * t.width + x).toNat SurfaceType.Tee ∧
      a.2.getD (z * t.width + x).toNat 0 =
        H.getD (z * t.width + x).toNat 0) _ ?_ (S, H) ⟨rfl, rfl⟩
  intro a p hp hPa
  by_cases hpt : p = (x, z)
  · subst hpt
    rw [paint_cell_skip t cx cz radius surface off flatten x z a
      (not_le.mpr hfar)]
    exact hPa
  · obtain ⟨m1, m2, m3, m4⟩ := (bboxCells_mem _ _ _ _ p).mp hp
    have hp0 : 0 ≤ p.1 := le_trans (le_max_left _ _) m1
    have hp1 : p.1 < t.width := by
      have := le_trans m2 (min_le_left _ _)
      omega
    have hp2 : 0 ≤ p.2 := le_trans (le_max_left _ _) m3
    obtain ⟨hb1, hb2, _, _⟩ := paint_cell_getD_ne t cx cz radius surface
      off flatten x z hx0 hx1 hz0 a p hp0 hp1 hp2 hpt
    exact ⟨hb1.trans hPa.1, hb2.trans hPa.2⟩

/-- The read-all copy reproduces `height_at` at each in-range cell. -/
theorem copy_heights_getD (t : Terrain) (x z : ℤ)
    (hx0 : 0 ≤ x) (hx1 : x < t.width) (hz0 : 0 ≤ z) (hz1 : z < t.depth) :
    (copy_heights t).getD (z * t.width + x).toNat 0 = t.height_at x z := by
  have hw : 0 < t.width := lt_of_le_of_lt hx0 hx1
  have hwN : 0 < t.width.toNat := by omega
  have hidxeq : (z * t.width + x).toNat =
      z.toNat * t.width.toNat + x.toNat := by
    have h1 : ((z.toNat * t.width.toNat + x.toNat : ℕ) : ℤ) =
        z * t.width + x := by
      push_cast
      rw [Int.toNat_of_nonneg hz0, Int.toNat_of_nonneg hx0,
        Int.toNat_of_nonneg (le_of_lt hw)]
    omega
  have hlt : z.toNat * t.width.toNat + x.toNat <
      t.depth.toNat * t.width.toNat := by
    calc z.toNat * t.width.toNat + x.toNat
        < z.toNat * t.width.toNat + t.width.toNat := by omega
      _ = (z.toNat + 1) * t.width.toNat := by ring
      _ ≤ t.depth.toNat * t.width.toNat :=
          Nat.mul_le_mul_right _ (by omega)
  rw [hidxeq]
  unfold copy_heights
  rw [List.getD_eq_getElem?_getD, List.getElem?_map,
    List.getElem?_range hlt]
  simp only [Option.map_some', Option.getD_some]
  have hmod : (z.toNat * t.width.toNat + x.toNat) % t.width.toNat =
      x.toNat := by
    rw [show z.toNat * t.width.toNat = t.width.toNat * z.toNat by ring,
      Nat.mul_add_mod, Nat.mod_eq_of_lt (by omega)]
  have hdiv : (z.toNat * t.width.toNat + x.toNat) / t.width.toNat =
      z.toNat := by
    rw [show z.toNat * t.width.toNat = t.width.toNat * z.toNat by ring,
      Nat.mul_add_div hwN, Nat.div_eq_of_lt (by omega), Nat.add_zero]
  rw [hmod, hdiv, Int.toNat_of_nonneg hx0, Int.toNat_of_nonneg hz0]

/-- The read-all copy reproduces `surface_at` at each in-range cell. -/
theorem copy_surfaces_getD (t : Terrain) (x z : ℤ)
    (hx0 : 0 ≤ x) (hx1 : x < t.width) (hz0 : 0 ≤ z) (hz1 : z < t.depth) :
    (copy_surfaces t).getD (z * t.width + x).toNat SurfaceType.Tee =
      t.surface_at x z := by
  have hw : 0 < t.width := lt_of_le_of_lt hx0 hx1
  have hwN : 0 < t.width.toNat := by omega
  have hidxeq : (z * t.width + x).toNat =
      z.toNat * t.width.toNat + x.toNat := by
    have h1 : ((z.toNat * t.width.toNat + x.toNat : ℕ) : ℤ) =
        z * t.width + x := by
      push_cast
      rw [Int.toNat_of_nonneg hz0, Int.toNat_of_nonneg hx0,
        Int.toNat_of_nonneg (le_of_lt hw)]
    omega
  have hlt : z.toNat * t.width.toNat + x.toNat <
      t.depth.toNat * t.width.toNat := by
    calc z.toNat * t.width.toNat + x.toNat
        < z.toNat * t.width.toNat + t.width.toNat := by omega
      _ = (z.toNat + 1) * t.width.toNat := by ring
      _ ≤ t.depth.toNat * t.width.toNat :=
          Nat.mul_le_mul_right _ (by omega)
  rw [hidxeq]
  unfold copy_surfaces
  rw [List.getD_eq_getElem?_getD, List.getElem?_map,
    List.getElem?_range hlt]
  simp only [Option.map_some', Option.getD_some]
  have hmod : (z.toNat * t.width.toNat + x.toNat) % t.width.toNat =
      x.toNat := by
    rw [show z.toNat * t.width.toNat = t.width.toNat * z.toNat by ring,
      Nat.mul_add_mod, Nat.mod_eq_of_lt (by omega)]
  have hdiv : (z.toNat * t.width.toNat + x.toNat) / t.width.toNat =
      z.toNat := by
    rw [show z.toNat * t.width.toNat = t.width.toNat * z.toNat by ring,
      Nat.mul_add_div hwN, Nat.div_eq_of_lt (by omega), Nat.add_zero]
  rw [hmod, hdiv, Int.toNat_of_nonneg hx0, Int.toNat_of_nonneg hz0]

/-- Applying `slope_cell` at a cell strictly outside the green is the identity. -/
theorem slope_cell_skip (t : Terrain) (green : GreenDef)
    (sdx sdz : ℝ) (h : List ℝ) (x z : ℤ)
    (hfar : ¬ (Real.sqrt
      ((((x : ℝ) - (t.width : ℝ) / 2) * t.cell_size - green.center.x) *
       (((x : ℝ) - (t.width : ℝ) / 2) * t.cell_size - green.center.x) +
       (((z : ℝ) - (t.depth : ℝ) / 2) * t.cell_size - green.center.z) *
       (((z : ℝ) - (t.depth : ℝ) / 2) * t.cell_size - green.center.z))
        ≤ green.radius)) :
    slope_cell t green sdx sdz h (x, z) = h := by
  simp only [slope_cell]
  rw [if_neg hfar]

/-- Folding `slope_cell` over in-range cells other than `(x,z)` leaves
the value at `(x,z)` unchanged. -/
theorem slope_fold_frame (t : Terrain) (green : GreenDef) (sdx sdz : ℝ)
    (x z : ℤ) (hx0 : 0 ≤ x) (hx1 : x < t.width) (hz0 : 0 ≤ z)
    (l : List (ℤ × ℤ))
    (hl : ∀ p ∈ l, (0 ≤ p.1 ∧ p.1 < t.width ∧ 0 ≤ p.2) ∧ p ≠ (x, z))
    (h : List ℝ) :
    (l.foldl (slope_cell t green sdx sdz) h).getD
        (z * t.width + x).toNat 0 =
      h.getD (z * t.width + x).toNat 0 := by
  refine foldl_invariant _ (fun a =>
    a.getD (z * t.width + x).toNat 0 =
      h.getD (z * t.width + x).toNat 0) l ?_ h rfl
  intro a p hp ha
  obtain ⟨⟨hp0, hp1, hp2⟩, hpne⟩ := hl p hp
  have hidx : (p.2 * t.width + p.1).toNat ≠ (z * t.width + x).toNat := by
    intro hcontra
    obtain ⟨he1, he2⟩ :=
      gridIdx_inj t.width x z p.1 p.2 hx0 hx1 hp0 hp1 hz0 hp2 hcontra
    exact hpne (Prod.ext he1 he2)
  simp only [slope_cell]
  split_ifs with h1
  · rw [getD_set_ne _ _ _ _ _ hidx]
    exact ha
  · exact ha

theorem gridIdx_lt (w d x z : ℤ) (hx0 : 0 ≤ x) (hx1 : x < w)
    (hz0 : 0 ≤ z) (hz1 : z < d) :
    (z * w + x).toNat < d.toNat * w.toNat := by
  have hw : 0 < w := lt_of_le_of_lt hx0 hx1
  have hidxeq : (z * w + x).toNat = z.toNat * w.toNat + x.toNat := by
    have h1 : ((z.toNat * w.toNat + x.toNat : ℕ) : ℤ) = z * w + x := by
      push_cast
      rw [Int.toNat_of_nonneg hz0, Int.toNat_of_nonneg hx0,
        Int.toNat_of_nonneg (le_of_lt hw)]
    omega
  rw [hidxeq]
  calc z.toNat * w.toNat + x.toNat
      < z.toNat * w.toNat + w.toNat := by omega
    _ = (z.toNat + 1) * w.toNat := by ring
    _ ≤ d.toNat * w.toNat := Nat.mul_le_mul_right _ (by omega)

/-- The exact value `paint_circle` writes at an in-range cell inside the
radius, in flatten mode: the source blends the current height toward
`original + height_offset` with `blend = dist/radius` and then adds
`height_offset` once more. -/
theorem paint_circle_at_cell (t : Terrain) (S : List SurfaceType)
    (H : List ℝ) (cx cz radius : ℝ) (surface : SurfaceType) (off : ℝ)
    (x z : ℤ) (hcs : 0 < t.cell_size)
    (hx0 : 0 ≤ x) (hx1 : x < t.width) (hz0 : 0 ≤ z) (hz1 : z < t.depth)
    (hS : (z * t.width + x).toNat < S.length)
    (hH : (z * t.width + x).toNat < H.length)
    (hnear : Real.sqrt
      ((((x : ℝ) - (t.width : ℝ) / 2) * t.cell_size - cx) *
       (((x : ℝ) - (t.width : ℝ) / 2) * t.cell_size - cx) +
       (((z : ℝ) - (t.depth : ℝ) / 2) * t.cell_size - cz) *
       (((z : ℝ) - (t.depth : ℝ) / 2) * t.cell_size - cz)) ≤ radius) :
    (paint_circle t S H cx cz radius surface off true).1.getD
        (z * t.width + x).toNat SurfaceType.Tee = surface ∧
    (paint_circle t S H cx cz radius surface off true).2.getD
        (z * t.width + x).toNat 0 =
      H.getD (z * t.width + x).toNat 0 *
        (Real.sqrt
          ((((x : ℝ) - (t.width : ℝ) / 2) * t.cell_size - cx) *
           (((x : ℝ) - (t.width : ℝ) / 2) * t.cell_size - cx) +
           (((z : ℝ) - (t.depth : ℝ) / 2) * t.cell_size - cz) *
           (((z : ℝ) - (t.depth : ℝ) / 2) * t.cell_size - cz)) / radius) +
      (t.height_at x z + off) *
        (1 - Real.sqrt
          ((((x : ℝ) - (t.width : ℝ) / 2) * t.cell_size - cx) *
           (((x : ℝ) - (t.width : ℝ) / 2) * t.cell_size - cx) +
           (((z : ℝ) - (t.depth : ℝ) / 2) * t.cell_size - cz) *
           (((z : ℝ) - (t.depth : ℝ) / 2) * t.cell_size - cz)) / radius) +
      off := by
  have hwg1 : (world_to_grid t (cx - radius) (cz - radius)).1 =
      cppTrunc ((cx - radius) / t.cell_size + (t.width : ℝ) / 2) := rfl
  have hwg2 : (world_to_grid t (cx - radius) (cz - radius)).2 =
      cppTrunc ((cz - radius) / t.cell_size + (t.depth : ℝ) / 2) := rfl
  have hwg3 : (world_to_grid t (cx + radius) (cz + radius)).1 =
      cppTrunc ((cx + radius) / t.cell_size + (t.width : ℝ) / 2) := rfl
  have hwg4 : (world_to_grid t (cx + radius) (cz + radius)).2 =
      cppTrunc ((cz + radius) / t.cell_size + (t.depth : ℝ) / 2) := rfl
  have hxw : ((x : ℝ) - (t.width : ℝ) / 2) * t.cell_size / t.cell_size +
      (t.width : ℝ) / 2 = (x : ℝ) := by field_simp; ring
  have hzw : ((z : ℝ) - (t.depth : ℝ) / 2) * t.cell_size / t.cell_size +
      (t.depth : ℝ) / 2 = (z : ℝ) := by field_simp; ring
  have hsq_z : (0:ℝ) ≤ (((z : ℝ) - (t.depth : ℝ) / 2) * t.cell_size - cz) *
      (((z : ℝ) - (t.depth : ℝ) / 2) * t.cell_size - cz) :=
    mul_self_nonneg _
  have hsq_x : (0:ℝ) ≤ (((x : ℝ) - (t.width : ℝ) / 2) * t.cell_size - cx) *
      (((x : ℝ) - (t.width : ℝ) / 2) * t.cell_size - cx) :=
    mul_self_nonneg _
  have habs_x : |((x : ℝ) - (t.width : ℝ) / 2) * t.cell_size - cx| ≤
      radius := by
    rw [← Real.sqrt_mul_self_eq_abs]
    exact le_trans (Real.sqrt_le_sqrt (by nlinarith)) hnear
  have habs_z : |((z : ℝ) - (t.depth : ℝ) / 2) * t.cell_size - cz| ≤
      radius := by
    rw [← Real.sqrt_mul_self_eq_abs]
    exact le_trans (Real.sqrt_le_sqrt (by nlinarith)) hnear
  obtain ⟨hax1, hax2⟩ := abs_le.mp habs_x
  obtain ⟨haz1, haz2⟩ := abs_le.mp habs_z
  have hlo_x : (cx - radius) / t.cell_size + (t.width : ℝ) / 2 ≤
      (x : ℝ) := by
    have h5 : (cx - radius) / t.cell_size ≤
        ((x : ℝ) - (t.width : ℝ) / 2) * t.cell_size / t.cell_size :=
      (div_le_div_right hcs).mpr (by linarith)
    linarith [hxw]
  have hhi_x : (x : ℝ) ≤ (cx + radius) / t.cell_size +
      (t.width : ℝ) / 2 := by
    have h5 : ((x : ℝ) - (t.width : ℝ) / 2) * t.cell_size / t.cell_size ≤
        (cx + radius) / t.cell_size :=
      (div_le_div_right hcs).mpr (by linarith)
    linarith [hxw]
  have hlo_z : (cz - radius) / t.cell_size + (t.depth : ℝ) / 2 ≤
      (z : ℝ) := by
    have h5 : (cz - radius) / t.cell_size ≤
        ((z : ℝ) - (t.depth : ℝ) / 2) * t.cell_size / t.cell_size :=
      (div_le_div_right hcs).mpr (by linarith)
    linarith [hzw]
  have hhi_z : (z : ℝ) ≤ (cz + radius) / t.cell_size +
      (t.depth : ℝ) / 2 := by
    have h5 : ((z : ℝ) - (t.depth : ℝ) / 2) * t.cell_size / t.cell_size ≤
        (cz + radius) / t.cell_size :=
      (div_le_div_right hcs).mpr (by linarith)
    linarith [hzw]
  have hm1 : max 0 (world_to_grid t (cx - radius) (cz - radius)).1 ≤
      x := max_le hx0 (by rw [hwg1]; exact cppTrunc_le_of_le _ x hlo_x)
  have hm3 : max 0 (world_to_grid t (cx - radius) (cz - radius)).2 ≤
      z := max_le hz0 (by rw [hwg2]; exact cppTrunc_le_of_le _ z hlo_z)
  have hm2 : x ≤ min (t.width - 1)
      (world_to_grid t (cx + radius) (cz + radius)).1 :=
    le_min (by omega) (by rw [hwg3]; exact le_cppTrunc_of_le x _ hhi_x)
  have hm4 : z ≤ min (t.depth - 1)
      (world_to_grid t (cx + radius) (cz + radius)).2 :=
    le_min (by omega) (by rw [hwg4]; exact le_cppTrunc_of_le z _ hhi_z)
  have hmem : (x, z) ∈ bboxCells
      (max 0 (world_to_grid t (cx - radius) (cz - radius)).1)
      (max 0 (world_to_grid t (cx - radius) (cz - radius)).2)
      (min (t.width - 1) (world_to_grid t (cx + radius) (cz + radius)).1)
      (min (t.depth - 1)
        (world_to_grid t (cx + radius) (cz + radius)).2) :=
    (bboxCells_mem _ _ _ _ (x, z)).mpr ⟨hm1, hm2, hm3, hm4⟩
  have hall : ∀ p ∈ bboxCells
      (max 0 (world_to_grid t (cx - radius) (cz - radius)).1)
      (max 0 (world_to_grid t (cx - radius) (cz - radius)).2)
      (min (t.width - 1) (world_to_grid t (cx + radius) (cz + radius)).1)
      (min (t.depth - 1)
        (world_to_grid t (cx + radius) (cz + radius)).2),
      0 ≤ p.1 ∧ p.1 < t.width ∧ 0 ≤ p.2 := by
    intro p hp
    obtain ⟨m1, m2, m3, m4⟩ := (bboxCells_mem _ _ _ _ p).mp hp
    refine ⟨le_trans (le_max_left _ _) m1, ?_,
      le_trans (le_max_left _ _) m3⟩
    have := le_trans m2 (min_le_left _ _)
    omega
  obtain ⟨l1, l2, hsplit⟩ := List.append_of_mem hmem
  have hnd := bboxCells_nodup
    (max 0 (world_to_grid t (cx - radius) (cz - radius)).1)
    (max 0 (world_to_grid t (cx - radius) (cz - radius)).2)
    (min (t.width - 1) (world_to_grid t (cx + radius) (cz + radius)).1)
    (min (t.depth - 1) (world_to_grid t (cx + radius) (cz + radius)).2)
  rw [hsplit] at hnd
  rw [List.nodup_append] at hnd
  have hnm1 : (x, z) ∉ l1 :=
    fun hmem1 => hnd.2.2 hmem1 (List.mem_cons_self _ _)
  have hnm2 : (x, z) ∉ l2 := (List.nodup_cons.mp hnd.2.1).1
  have hpc : paint_circle t S H cx cz radius surface off true =
      (bboxCells
        (max 0 (world_to_grid t (cx - radius) (cz - radius)).1)
        (max 0 (world_to_grid t (cx - radius) (cz - radius)).2)
        (min (t.width - 1)
          (world_to_grid t (cx + radius) (cz + radius)).1)
        (min (t.depth - 1)
          (world_to_grid t (cx + radius) (cz + radius)).2)).foldl
        (paint_cell t cx cz radius surface off true) (S, H) := rfl
  rw [hpc, hsplit, List.foldl_append, List.foldl_cons]
  have h1 := paint_fold_frame t cx cz radius surface off true x z
    hx0 hx1 hz0 l1 (fun p hp => ⟨hall p (by
      rw [hsplit]; exact List.mem_append_left _ hp),
      fun he => hnm1 (he ▸ hp)⟩) (S, H)
  dsimp only at h1
  have h2 := paint_cell_target_flatten t cx cz radius surface off x z
    (List.foldl (paint_cell t cx cz radius surface off true) (S, H) l1)
    (by rw [h1.2.2.1]; exact hS) (by rw [h1.2.2.2]; exact hH) hnear
  have h3 := paint_fold_frame t cx cz radius surface off true x z
    hx0 hx1 hz0 l2 (fun p hp => ⟨hall p (by
      rw [hsplit]
      exact List.mem_append_right _ (List.mem_cons_of_mem _ hp)),
      fun he => hnm2 (he ▸ hp)⟩)
    (paint_cell t cx cz radius surface off true
      (List.foldl (paint_cell t cx cz radius surface off true) (S, H) l1)
      (x, z))
  refine ⟨?_, ?_⟩
  · rw [h3.1, h2.1]
  · rw [h3.2.1, h2.2.1, h1.2.1]

/-- The four circular stamp operations of `CourseBuilder`. -/
inductive StampOp where
  | bunker (b : Bunker)
  | tee (td : TeeDef)
  | green (g : GreenDef)
  | water (center : Vec3) (rad : ℝ)

/-- Apply a stamp operation to a terrain. -/
def StampOp.apply : StampOp → Terrain → Terrain
  | .bunker b, t => stamp_bunker t b
  | .tee td, t => stamp_tee t td
  | .green g, t => stamp_green t g
  | .water c r, t => stamp_water t c r

/-- World x of the stamp circle's centre. -/
def StampOp.cX : StampOp → ℝ
  | .bunker b => b.center.x
  | .tee td => td.position.x
  | .green g => g.center.x
  | .water c _ => c.x

/-- World z of the stamp circle's centre. -/
def StampOp.cZ : StampOp → ℝ
  | .bunker b => b.center.z
  | .tee td => td.position.z
  | .green g => g.center.z
  | .water c _ => c.z

/-- The stamp circle's radius (for the tee, `max(width, depth)` as in
the source). -/
def StampOp.rad : StampOp → ℝ
  | .bunker b => b.radius
  | .tee td => max td.width td.depth
  | .green g => g.radius
  | .water _ r => r

/-- Cells strictly outside the green circle are untouched by the slope
pass of `stamp_green`. -/
theorem slope_fold_frame_far (t : Terrain) (g : GreenDef) (sdx sdz : ℝ)
    (x z : ℤ)
    (hx0 : 0 ≤ x) (hx1 : x < t.width) (hz0 : 0 ≤ z) (hz1 : z < t.depth)
    (hfar : g.radius < Real.sqrt
      ((((x : ℝ) - (t.width : ℝ) / 2) * t.cell_size - g.center.x) *
       (((x : ℝ) - (t.width : ℝ) / 2) * t.cell_size - g.center.x) +
       (((z : ℝ) - (t.depth : ℝ) / 2) * t.cell_size - g.center.z) *
       (((z : ℝ) - (t.depth : ℝ) / 2) * t.cell_size - g.center.z)))
    (h : List ℝ) :
    ((bboxCells
      (max 0 (world_to_grid t (g.center.x - g.radius)
        (g.center.z - g.radius)).1)
      (max 0 (world_to_grid t (g.center.x - g.radius)
        (g.center.z - g.radius)).2)
      (min (t.width - 1) (world_to_grid t (g.center.x + g.radius)
        (g.center.z + g.radius)).1)
      (min (t.depth - 1) (world_to_grid t (g.center.x + g.radius)
        (g.center.z + g.radius)).2)).foldl
      (slope_cell t g sdx sdz) h).getD (z * t.width + x).toNat 0 =
      h.getD (z * t.width + x).toNat 0 := by
  refine foldl_invariant _ (fun a =>
    a.getD (z * t.width + x).toNat 0 =
      h.getD (z * t.width + x).toNat 0) _ ?_ h rfl
  intro a p hp ha
  by_cases hpt : p = (x, z)
  · subst hpt
    rw [slope_cell_skip t g sdx sdz a x z (not_le.mpr hfar)]
    exact ha
  · obtain ⟨m1, m2, m3, m4⟩ := (bboxCells_mem _ _ _ _ p).mp hp
    have hp0 : 0 ≤ p.1 := le_trans (le_max_left _ _) m1
    have hp1 : p.1 < t.width := by
      have := le_trans m2 (min_le_left _ _)
      omega
    have hp2 : 0 ≤ p.2 := le_trans (le_max_left _ _) m3
    have hidx : (p.2 * t.width + p.1).toNat ≠ (z * t.width + x).toNat := by
      intro hcontra
      obtain ⟨he1, he2⟩ :=
        gridIdx_inj t.width x z p.1 p.2 hx0 hx1 hp0 hp1 hz0 hp2 hcontra
      exact hpt (Prod.ext he1 he2)
    simp only [slope_cell]
    split_ifs with h1
    · rw [getD_set_ne _ _ _ _ _ hidx]
      exact ha
    · exact ha

/-- C8: after any single circular stamp (bunker, tee, green, water),
every in-range grid cell whose world position is strictly farther than
the stamp radius from the stamp centre keeps its height and surface. -/
theorem stamp_outside_circle_unchanged (op : StampOp) (t : Terrain)
    (x z : ℤ)
    (hx0 : 0 ≤ x) (hx1 : x < t.width) (hz0 : 0 ≤ z) (hz1 : z < t.depth)
    (hfar : op.rad < Real.sqrt
      ((((x : ℝ) - (t.width : ℝ) / 2) * t.cell_size - op.cX) *
       (((x : ℝ) - (t.width : ℝ) / 2) * t.cell_size - op.cX) +
       (((z : ℝ) - (t.depth : ℝ) / 2) * t.cell_size - op.cZ) *
       (((z : ℝ) - (t.depth : ℝ) / 2) * t.cell_size - op.cZ))) :
    (op.apply t).height_at x z = t.height_at x z ∧
    (op.apply t).surface_at x z = t.surface_at x z := by
  have hclx : cppClamp x 0 (t.width - 1) = x := by
    simp only [cppClamp]; omega
  have hclz : cppClamp z 0 (t.depth - 1) = z := by
    simp only [cppClamp]; omega
  cases op with
  | bunker b =>
    simp only [StampOp.rad, StampOp.cX, StampOp.cZ] at hfar
    have hfr := paint_circle_frame t (copy_surfaces t) (copy_heights t)
      b.center.x b.center.z b.radius SurfaceType.Sand (-b.depth) true
      x z hx0 hx1 hz0 hz1 hfar
    constructor
    · have h1 : (stamp_bunker t b).height_at x z =
          (paint_circle t (copy_surfaces t) (copy_heights t) b.center.x
            b.center.z b.radius SurfaceType.Sand (-b.depth) true).2.getD
            (z * t.width + x).toNat 0 := by
        simp only [stamp_bunker, Terrain.set_data, Terrain.height_at,
          hclx, hclz]
      rw [show (StampOp.bunker b).apply t = stamp_bunker t b from rfl,
        h1, hfr.2, copy_heights_getD t x z hx0 hx1 hz0 hz1]
    · have h1 : (stamp_bunker t b).surface_at x z =
          (paint_circle t (copy_surfaces t) (copy_heights t) b.center.x
            b.center.z b.radius SurfaceType.Sand (-b.depth) true).1.getD
            (z * t.width + x).toNat SurfaceType.Tee := by
        simp only [stamp_bunker, Terrain.set_data, Terrain.surface_at,
          hclx, hclz]
      rw [show (StampOp.bunker b).apply t = stamp_bunker t b from rfl,
        h1, hfr.1, copy_surfaces_getD t x z hx0 hx1 hz0 hz1]
  | tee td =>
    simp only [StampOp.rad, StampOp.cX, StampOp.cZ] at hfar
    have hfr := paint_circle_frame t (copy_surfaces t) (copy_heights t)
      td.position.x td.position.z (max td.width td.depth)
      SurfaceType.Tee (1/10) true x z hx0 hx1 hz0 hz1 hfar
    constructor
    · have h1 : (stamp_tee t td).height_at x z =
          (paint_circle t (copy_surfaces t) (copy_heights t)
            td.position.x td.position.z (max td.width td.depth)
            SurfaceType.Tee (1/10) true).2.getD
            (z * t.width + x).toNat 0 := by
        simp only [stamp_tee, Terrain.set_data, Terrain.height_at,
          hclx, hclz]
      rw [show (StampOp.tee td).apply t = stamp_tee t td from rfl,
        h1, hfr.2, copy_heights_getD t x z hx0 hx1 hz0 hz1]
    · have h1 : (stamp_tee t td).surface_at x z =
          (paint_circle t (copy_surfaces t) (copy_heights t)
            td.position.x td.position.z (max td.width td.depth)
            SurfaceType.Tee (1/10) true).1.getD
            (z * t.width + x).toNat SurfaceType.Tee := by
        simp only [stamp_tee, Terrain.set_data, Terrain.surface_at,
          hclx, hclz]
      rw [show (StampOp.tee td).apply t = stamp_tee t td from rfl,
        h1, hfr.1, copy_surfaces_getD t x z hx0 hx1 hz0 hz1]
  | water c r =>
    simp only [StampOp.rad, StampOp.cX, StampOp.cZ] at hfar
    have hfr := paint_circle_frame t (copy_surfaces t) (copy_heights t)
      c.x c.z r SurfaceType.Water (-(1/2)) true x z hx0 hx1 hz0 hz1 hfar
    constructor
    · have h1 : (stamp_water t c r).height_at x z =
          (paint_circle t (copy_surfaces t) (copy_heights t) c.x c.z r
            SurfaceType.Water (-(1/2)) true).2.getD
            (z * t.width + x).toNat 0 := by
        simp only [stamp_water, Terrain.set_data, Terrain.height_at,
          hclx, hclz]
      rw [show (StampOp.water c r).apply t = stamp_water t c r from rfl,
        h1, hfr.2, copy_heights_getD t x z hx0 hx1 hz0 hz1]
    · have h1 : (stamp_water t c r).surface_at x z =
          (paint_circle t (copy_surfaces t) (copy_heights t) c.x c.z r
            SurfaceType.Water (-(1/2)) true).1.getD
            (z * t.width + x).toNat SurfaceType.Tee := by
        simp only [stamp_water, Terrain.set_data, Terrain.surface_at,
          hclx, hclz]
      rw [show (StampOp.water c r).apply t = stamp_water t c r from rfl,
        h1, hfr.1, copy_surfaces_getD t x z hx0 hx1 hz0 hz1]
  | green g =>
    simp only [StampOp.rad, StampOp.cX, StampOp.cZ] at hfar
    have hfr := paint_circle_frame t (copy_surfaces t) (copy_heights t)
      g.center.x g.center.z g.radius SurfaceType.Green 0 true
      x z hx0 hx1 hz0 hz1 hfar
    constructor
    · have h1 : (stamp_green t g).height_at x z =
          (if g.slope_angle > 1/100 then
            ((bboxCells
              (max 0 (world_to_grid t (g.center.x - g.radius)
                (g.center.z - g.radius)).1)
              (max 0 (world_to_grid t (g.center.x - g.radius)
                (g.center.z - g.radius)).2)
              (min (t.width - 1) (world_to_grid t (g.center.x + g.radius)
                (g.center.z + g.radius)).1)
              (min (t.depth - 1) (world_to_grid t (g.center.x + g.radius)
                (g.center.z + g.radius)).2)).foldl
              (slope_cell t g
                (Real.cos g.slope_dir *
                  Real.tan (g.slope_angle * (314159/100000) / 180))
                (Real.sin g.slope_dir *
                  Real.tan (g.slope_angle * (314159/100000) / 180)))
              (paint_circle t (copy_surfaces t) (copy_heights t)
                g.center.x g.center.z g.radius SurfaceType.Green 0
                true).2)
          else
            (paint_circle t (copy_surfaces t) (copy_heights t)
              g.center.x g.center.z g.radius SurfaceType.Green 0
              true).2).getD (z * t.width + x).toNat 0 := by
        by_cases hsl : g.slope_angle > 1/100
        · rw [if_pos hsl]
          simp only [stamp_green, Terrain.set_data, Terrain.height_at,
            hclx, hclz, if_pos hsl]
        · rw [if_neg hsl]
          simp only [stamp_green, Terrain.set_data, Terrain.height_at,
            hclx, hclz, if_neg hsl]
      rw [show (StampOp.green g).apply t = stamp_green t g from rfl, h1]
      by_cases hsl : g.slope_angle > 1/100
      · rw [if_pos hsl,
          slope_fold_frame_far t g _ _ x z hx0 hx1 hz0 hz1 hfar,
          hfr.2, copy_heights_getD t x z hx0 hx1 hz0 hz1]
      · rw [if_neg hsl, hfr.2, copy_heights_getD t x z hx0 hx1 hz0 hz1]
    · have h1 : (stamp_green t g).surface_at x z =
          (paint_circle t (copy_surfaces t) (copy_heights t) g.center.x
            g.center.z g.radius SurfaceType.Green 0 true).1.getD
            (z * t.width + x).toNat SurfaceType.Tee := by
        simp only [stamp_green, Terrain.set_data, Terrain.surface_at,
          hclx, hclz]
      rw [show (StampOp.green g).apply t = stamp_green t g from rfl,
        h1, hfr.1, copy_surfaces_getD t x z hx0 hx1 hz0 hz1]

/-- Witness for C8: the corner cell (0,0) of a 4×4 flat terrain lies at
distance √8 > 1 from a bunker of radius 1 stamped at the origin, and is
unchanged. -/
theorem stamp_outside_circle_unchanged_witness :
    ((StampOp.bunker (Bunker.mk ⟨0, 0, 0⟩ 1 (2/5))).apply
        (flatTerrain 4 4 1 0 SurfaceType.Rough)).height_at 0 0 =
      (flatTerrain 4 4 1 0 SurfaceType.Rough).height_at 0 0 ∧
    ((StampOp.bunker (Bunker.mk ⟨0, 0, 0⟩ 1 (2/5))).apply
        (flatTerrain 4 4 1 0 SurfaceType.Rough)).surface_at 0 0 =
      (flatTerrain 4 4 1 0 SurfaceType.Rough).surface_at 0 0 := by
  apply stamp_outside_circle_unchanged
    (StampOp.bunker (Bunker.mk ⟨0, 0, 0⟩ 1 (2/5)))
    (flatTerrain 4 4 1 0 SurfaceType.Rough) 0 0
    (by norm_num) (by norm_num [flatTerrain]) (by norm_num)
    (by norm_num [flatTerrain])
  have harg :
      ((((0:ℤ) : ℝ) - ((flatTerrain 4 4 1 0 SurfaceType.Rough).width : ℝ)
          / 2) * (flatTerrain 4 4 1 0 SurfaceType.Rough).cell_size -
        (StampOp.bunker (Bunker.mk ⟨0, 0, 0⟩ 1 (2/5))).cX) *
      ((((0:ℤ) : ℝ) - ((flatTerrain 4 4 1 0 SurfaceType.Rough).width : ℝ)
          / 2) * (flatTerrain 4 4 1 0 SurfaceType.Rough).cell_size -
        (StampOp.bunker (Bunker.mk ⟨0, 0, 0⟩ 1 (2/5))).cX) +
      ((((0:ℤ) : ℝ) - ((flatTerrain 4 4 1 0 SurfaceType.Rough).depth : ℝ)
          / 2) * (flatTerrain 4 4 1 0 SurfaceType.Rough).cell_size -
        (StampOp.bunker (Bunker.mk ⟨0, 0, 0⟩ 1 (2/5))).cZ) *
      ((((0:ℤ) : ℝ) - ((flatTerrain 4 4 1 0 SurfaceType.Rough).depth : ℝ)
          / 2) * (flatTerrain 4 4 1 0 SurfaceType.Rough).cell_size -
        (StampOp.bunker (Bunker.mk ⟨0, 0, 0⟩ 1 (2/5))).cZ) = 8 := by
    norm_num [flatTerrain, StampOp.cX, StampOp.cZ]
  rw [harg]
  have h8 : (1:ℝ) < Real.sqrt 8 := by
    have := Real.sq_sqrt (by norm_num : (0:ℝ) ≤ 8)
    nlinarith [Real.sqrt_nonneg (8:ℝ)]
  simpa [StampOp.rad] using h8

/-- C1 (amended: the code's flatten blend adds `height_offset` once
more after the interpolation, so a cell inside the radius is set to
`current*blend + (original + heightOffset)*(1-blend) + heightOffset`
with `blend = dist/radius`; in particular a cell at the centre ends at
`original + 2*heightOffset` and a cell at the rim ends at its
pre-existing height plus `heightOffset`). -/
theorem claim1_flatten_blend (t : Terrain) (S : List SurfaceType)
    (H : List ℝ) (cx cz radius : ℝ) (surface : SurfaceType) (off : ℝ)
    (x z : ℤ) (hcs : 0 < t.cell_size) (hr : 0 < radius)
    (hx0 : 0 ≤ x) (hx1 : x < t.width) (hz0 : 0 ≤ z) (hz1 : z < t.depth)
    (hS : (z * t.width + x).toNat < S.length)
    (hH : (z * t.width + x).toNat < H.length)
    (hnear : Real.sqrt
      ((((x : ℝ) - (t.width : ℝ) / 2) * t.cell_size - cx) *
       (((x : ℝ) - (t.width : ℝ) / 2) * t.cell_size - cx) +
       (((z : ℝ) - (t.depth : ℝ) / 2) * t.cell_size - cz) *
       (((z : ℝ) - (t.depth : ℝ) / 2) * t.cell_size - cz)) ≤ radius) :
    (paint_circle t S H cx cz radius surface off true).2.getD
        (z * t.width + x).toNat 0 =
      H.getD (z * t.width + x).toNat 0 *
        (Real.sqrt
          ((((x : ℝ) - (t.width : ℝ) / 2) * t.cell_size - cx) *
           (((x : ℝ) - (t.width : ℝ) / 2) * t.cell_size - cx) +
           (((z : ℝ) - (t.depth : ℝ) / 2) * t.cell_size - cz) *
           (((z : ℝ) - (t.depth : ℝ) / 2) * t.cell_size - cz)) / radius) +
      (t.height_at x z + off) *
        (1 - Real.sqrt
          ((((x : ℝ) - (t.width : ℝ) / 2) * t.cell_size - cx) *
           (((x : ℝ) - (t.width : ℝ) / 2) * t.cell_size - cx) +
           (((z : ℝ) - (t.depth : ℝ) / 2) * t.cell_size - cz) *
           (((z : ℝ) - (t.depth : ℝ) / 2) * t.cell_size - cz)) / radius) +
      off ∧
    (Real.sqrt
      ((((x : ℝ) - (t.width : ℝ) / 2) * t.cell_size - cx) *
       (((x : ℝ) - (t.width : ℝ) / 2) * t.cell_size - cx) +
       (((z : ℝ) - (t.depth : ℝ) / 2) * t.cell_size - cz) *
       (((z : ℝ) - (t.depth : ℝ) / 2) * t.cell_size - cz)) = 0 →
      (paint_circle t S H cx cz radius surface off true).2.getD
        (z * t.width + x).toNat 0 = t.height_at x z + 2 * off) ∧
    (Real.sqrt
      ((((x : ℝ) - (t.width : ℝ) / 2) * t.cell_size - cx) *
       (((x : ℝ) - (t.width : ℝ) / 2) * t.cell_size - cx) +
       (((z : ℝ) - (t.depth : ℝ) / 2) * t.cell_size - cz) *
       (((z : ℝ) - (t.depth : ℝ) / 2) * t.cell_size - cz)) = radius →
      (paint_circle t S H cx cz radius surface off true).2.getD
        (z * t.width + x).toNat 0 =
          H.getD (z * t.width + x).toNat 0 + off) := by
  obtain ⟨hs, hh⟩ := paint_circle_at_cell t S H cx cz radius surface off
    x z hcs hx0 hx1 hz0 hz1 hS hH hnear
  refine ⟨hh, ?_, ?_⟩
  · intro hd0
    rw [hh, hd0]
    field_simp
    ring
  · intro hdr
    rw [hh, hdr]
    field_simp

/-- Witness for C1's amended theorem: the centre cell of a bunker
stamped on a flat-zero 4×4 terrain ends at `0 + 2*(-2/5) = -4/5`. -/
theorem claim1_flatten_blend_witness :
    (paint_circle (flatTerrain 4 4 1 0 SurfaceType.Rough)
        (List.replicate 16 SurfaceType.Rough) (List.replicate 16 (0:ℝ))
        0 0 (2/5) SurfaceType.Sand (-(2/5)) true).2.getD
        (((2:ℤ) * (flatTerrain 4 4 1 0 SurfaceType.Rough).width +
          2).toNat) 0 =
      (flatTerrain 4 4 1 0 SurfaceType.Rough).height_at 2 2 +
        2 * (-(2/5)) := by
  have harg :
      ((((2:ℤ) : ℝ) - ((flatTerrain 4 4 1 0 SurfaceType.Rough).width : ℝ)
          / 2) * (flatTerrain 4 4 1 0 SurfaceType.Rough).cell_size - 0) *
      ((((2:ℤ) : ℝ) - ((flatTerrain 4 4 1 0 SurfaceType.Rough).width : ℝ)
          / 2) * (flatTerrain 4 4 1 0 SurfaceType.Rough).cell_size - 0) +
      ((((2:ℤ) : ℝ) - ((flatTerrain 4 4 1 0 SurfaceType.Rough).depth : ℝ)
          / 2) * (flatTerrain 4 4 1 0 SurfaceType.Rough).cell_size - 0) *
      ((((2:ℤ) : ℝ) - ((flatTerrain 4 4 1 0 SurfaceType.Rough).depth : ℝ)
          / 2) * (flatTerrain 4 4 1 0 SurfaceType.Rough).cell_size - 0)
      = 0 := by
    norm_num [flatTerrain]
  have h := claim1_flatten_blend (flatTerrain 4 4 1 0 SurfaceType.Rough)
    (List.replicate 16 SurfaceType.Rough) (List.replicate 16 (0:ℝ))
    0 0 (2/5) SurfaceType.Sand (-(2/5)) 2 2
    (by norm_num [flatTerrain]) (by norm_num)
    (by norm_num) (by norm_num [flatTerrain]) (by norm_num)
    (by norm_num [flatTerrain])
    (by simp [flatTerrain]) (by simp [flatTerrain])
    (by rw [harg, Real.sqrt_zero]; norm_num)
  exact h.2.1 (by rw [harg, Real.sqrt_zero])

/-- Counterexample to C1 as stated: stamping a bunker of depth 0.4 at
the centre of a flat-zero terrain leaves the centre cell at height
-0.8, not at `original + heightOffset = -0.4`, and the rim gains the
full offset instead of keeping its height. -/
theorem claim1_counterexample :
    (stamp_bunker (flatTerrain 4 4 1 0 SurfaceType.Rough)
        (Bunker.mk ⟨0, 0, 0⟩ (2/5) (2/5))).height_at 2 2 = -(4/5) ∧
    (stamp_bunker (flatTerrain 4 4 1 0 SurfaceType.Rough)
        (Bunker.mk ⟨0, 0, 0⟩ (2/5) (2/5))).height_at 2 2 ≠
      (flatTerrain 4 4 1 0 SurfaceType.Rough).height_at 2 2 +
        (-(2/5)) := by
  have hflat : (flatTerrain 4 4 1 0 SurfaceType.Rough).height_at 2 2 =
      0 := flatTerrain_height_at 4 4 1 0 SurfaceType.Rough
    (by norm_num) (by norm_num) 2 2
  have hlenH : (copy_heights (flatTerrain 4 4 1 0
      SurfaceType.Rough)).length = 16 := by
    simp [copy_heights, flatTerrain]
  have hlenS : (copy_surfaces (flatTerrain 4 4 1 0
      SurfaceType.Rough)).length = 16 := by
    simp [copy_surfaces, flatTerrain]
  have harg :
      ((((2:ℤ) : ℝ) - ((flatTerrain 4 4 1 0 SurfaceType.Rough).width : ℝ)
          / 2) * (flatTerrain 4 4 1 0 SurfaceType.Rough).cell_size - 0) *
      ((((2:ℤ) : ℝ) - ((flatTerrain 4 4 1 0 SurfaceType.Rough).width : ℝ)
          / 2) * (flatTerrain 4 4 1 0 SurfaceType.Rough).cell_size - 0) +
      ((((2:ℤ) : ℝ) - ((flatTerrain 4 4 1 0 SurfaceType.Rough).depth : ℝ)
          / 2) * (flatTerrain 4 4 1 0 SurfaceType.Rough).cell_size - 0) *
      ((((2:ℤ) : ℝ) - ((flatTerrain 4 4 1 0 SurfaceType.Rough).depth : ℝ)
          / 2) * (flatTerrain 4 4 1 0 SurfaceType.Rough).cell_size - 0)
      = 0 := by
    norm_num [flatTerrain]
  have hcell := paint_circle_at_cell (flatTerrain 4 4 1 0
      SurfaceType.Rough)
    (copy_surfaces (flatTerrain 4 4 1 0 SurfaceType.Rough))
    (copy_heights (flatTerrain 4 4 1 0 SurfaceType.Rough))
    0 0 (2/5) SurfaceType.Sand (-(2/5)) 2 2
    (by norm_num [flatTerrain]) (by norm_num)
    (by norm_num [flatTerrain]) (by norm_num)
    (by norm_num [flatTerrain])
    (by rw [hlenS]; norm_num [flatTerrain])
    (by rw [hlenH]; norm_num [flatTerrain])
    (by rw [harg, Real.sqrt_zero]; norm_num)
  have hcopy := copy_heights_getD (flatTerrain 4 4 1 0 SurfaceType.Rough)
    2 2 (by norm_num) (by norm_num [flatTerrain]) (by norm_num)
    (by norm_num [flatTerrain])
  have hval : (paint_circle (flatTerrain 4 4 1 0 SurfaceType.Rough)
      (copy_surfaces (flatTerrain 4 4 1 0 SurfaceType.Rough))
      (copy_heights (flatTerrain 4 4 1 0 SurfaceType.Rough))
      0 0 (2/5) SurfaceType.Sand (-(2/5)) true).2.getD
      ((2 * (flatTerrain 4 4 1 0 SurfaceType.Rough).width + 2).toNat) 0
      = -(4/5) := by
    rw [hcell.2, harg, Real.sqrt_zero, hcopy, hflat]
    norm_num
  have hclx : cppClamp 2 0 ((flatTerrain 4 4 1 0
      SurfaceType.Rough).width - 1) = 2 := rfl
  have hclz : cppClamp 2 0 ((flatTerrain 4 4 1 0
      SurfaceType.Rough).depth - 1) = 2 := rfl
  have h1 : (stamp_bunker (flatTerrain 4 4 1 0 SurfaceType.Rough)
      (Bunker.mk ⟨0, 0, 0⟩ (2/5) (2/5))).height_at 2 2 =
      (paint_circle (flatTerrain 4 4 1 0 SurfaceType.Rough)
        (copy_surfaces (flatTerrain 4 4 1 0 SurfaceType.Rough))
        (copy_heights (flatTerrain 4 4 1 0 SurfaceType.Rough))
        0 0 (2/5) SurfaceType.Sand (-(2/5)) true).2.getD
        ((2 * (flatTerrain 4 4 1 0 SurfaceType.Rough).width + 2).toNat)
        0 := by
    simp only [stamp_bunker, Terrain.set_data, Terrain.height_at,
      hclx, hclz]
  refine ⟨by rw [h1, hval], ?_⟩
  rw [h1, hval, hflat]
  norm_num

end

end QuatGolf
